import Mathlib

/-!
# Copper-IA native boundary layer (`src/cpp/lib.cpp`)

A shallow embedding of the C++ foreign-function layer that wraps the TensorFlow C API
and libtorch behind `void*` handles, followed by theorems about it.

Conventions of the embedding

* A `void*` argument that the code casts to a backend object is an `Option`: `none` is
  `nullptr`, `some x` is a pointer to a live object `x` of the type the cast assumes.
  The heap model of the second part (addresses, liveness, kinds) drops that assumption.
* `size_t` is a natural number reduced modulo `2 ^ 64`; `int64_t`/`int` values are `Int`.
* `float` is a type parameter together with the scalar primitives a function uses; the
  type `F32` gives the IEEE-754 binary32 data the division policy talks about.
* The backend libraries (libc `malloc`, TensorFlow, libtorch) are not part of the
  repository: their answers are oracle fields of `TFBackend`, `SessionBackend`,
  `TorchBackend` and `TorchMath`; what their documentation promises is a hypothesis where a
  theorem needs it (`FreshAlloc`, `ZeroGradClears`, `FlatIndex`).
* `Exec.undefined` marks an execution with undefined behaviour in C++ (an access outside a
  buffer, the use of a dangling or wrongly typed pointer).
-/

namespace CopperIA

/-! ## Outcomes and machine arithmetic -/

/-- Outcome of running a boundary function: it returns `v`, or its behaviour is
undefined in C++. -/
inductive Exec (β : Type) where
  | ok (v : β)
  | undefined
  deriving DecidableEq, Repr

/-- Modulus of `size_t` arithmetic (64-bit target). -/
def SIZE_MOD : Nat := 2 ^ 64

/-- Conversion `int64_t → size_t`. -/
def toSizeT (x : Int) : Nat := (x % (SIZE_MOD : Int)).toNat

/-- Multiplication in `size_t`. -/
def mulSizeT (a b : Nat) : Nat := (a * b) % SIZE_MOD

/-- The constant `sizeof(float)`. -/
def SIZEOF_FLOAT : Nat := 4

/-! ## Graph-engine tensors (`TF_Tensor`) -/

/-- Element type tags of the TensorFlow C API (`TF_DataType`), the ones used here. -/
inductive TF_DataType where
  | TF_FLOAT
  | TF_DOUBLE
  | TF_INT32
  | TF_INT64
  | TF_BOOL
  deriving DecidableEq, Repr

/-- A live `TF_Tensor`: `TF_TensorType`, the dimensions `TF_Dim(t, 0 .. TF_NumDims(t))`, and
the buffer `TF_TensorData(t)` read as an array of `float`. -/
structure TF_Tensor (α : Type) where
  dtype : TF_DataType
  dims : List Int
  data : List α
  deriving DecidableEq, Repr

/-- Answers of the allocator and of TensorFlow for one call of a boundary function. -/
structure TFBackend where
  /-- Whether `malloc(size)` returns a non-null pointer. -/
  malloc : Nat → Bool
  /-- Whether `TF_NewTensor(dtype, dims, num_dims, data, len, ...)` returns a non-null tensor. -/
  TF_NewTensor : TF_DataType → List Int → Nat → Bool

/-- The dimension loop shared by the four arithmetic functions:
`for i < num_dims_a: if (dim_a != dim_b) return nullptr; dims[i] = dim_a; num_elements *= dim_a;`
run over the paired dimensions, from the state `(dims, num_elements)`. `none` is the early
`return nullptr`. -/
def dimLoop : List (Int × Int) → List Int × Nat → Option (List Int × Nat)
  | [], acc => some acc
  | (dim_a, dim_b) :: rest, (dims, num_elements) =>
      if dim_a ≠ dim_b then none
      else dimLoop rest (dims ++ [dim_a], mulSizeT num_elements (toSizeT dim_a))

/-- The element loop `for i < num_elements: result_data[i] = f(data_a[i], data_b[i])`, walking
both operand buffers. `none` is a read past the end of an operand buffer. -/
def elemLoop {α : Type} (f : α → α → α) : Nat → List α → List α → Option (List α)
  | 0, _, _ => some []
  | n + 1, x :: data_a, y :: data_b => (elemLoop f n data_a data_b).map (fun r => f x y :: r)
  | _ + 1, _, _ => none

/-- Body common to the four arithmetic functions after the operand checks: allocate
`sizeof(float) * num_elements` bytes, fill the buffer, wrap it with `TF_NewTensor`. -/
def allocFillWrap {α : Type} (B : TFBackend) (f : α → α → α) (dims : List Int)
    (num_elements : Nat) (data_a data_b : List α) : Exec (Option (TF_Tensor α)) :=
  let bytes := mulSizeT SIZEOF_FLOAT num_elements
  if B.malloc bytes = false then .ok none
  else if bytes / SIZEOF_FLOAT < num_elements then .undefined
  else
    match elemLoop f num_elements data_a data_b with
    | none => .undefined
    | some result_data =>
        if B.TF_NewTensor .TF_FLOAT dims bytes = false then .ok none
        else .ok (some ⟨.TF_FLOAT, dims, result_data⟩)

/-- Function `TFTensorAdd(tensor_a_ptr, tensor_b_ptr)`. -/
def TFTensorAdd {α : Type} (B : TFBackend) (fadd : α → α → α)
    (tensor_a_ptr tensor_b_ptr : Option (TF_Tensor α)) : Exec (Option (TF_Tensor α)) :=
  match tensor_a_ptr, tensor_b_ptr with
  | some tensor_a, some tensor_b =>
      if tensor_a.dtype ≠ .TF_FLOAT ∨ tensor_b.dtype ≠ .TF_FLOAT then .ok none
      else if tensor_a.dims.length ≠ tensor_b.dims.length then .ok none
      else
        match dimLoop (tensor_a.dims.zip tensor_b.dims) ([], 1) with
        | none => .ok none
        | some (dims, num_elements) =>
            allocFillWrap B (fun x y => fadd x y) dims num_elements tensor_a.data tensor_b.data
  | _, _ => .ok none

/-- Function `TFTensorSub(tensor_a_ptr, tensor_b_ptr)`. -/
def TFTensorSub {α : Type} (B : TFBackend) (fsub : α → α → α)
    (tensor_a_ptr tensor_b_ptr : Option (TF_Tensor α)) : Exec (Option (TF_Tensor α)) :=
  match tensor_a_ptr, tensor_b_ptr with
  | some tensor_a, some tensor_b =>
      if tensor_a.dtype ≠ .TF_FLOAT ∨ tensor_b.dtype ≠ .TF_FLOAT then .ok none
      else if tensor_a.dims.length ≠ tensor_b.dims.length then .ok none
      else
        match dimLoop (tensor_a.dims.zip tensor_b.dims) ([], 1) with
        | none => .ok none
        | some (dims, num_elements) =>
            allocFillWrap B (fun x y => fsub x y) dims num_elements tensor_a.data tensor_b.data
  | _, _ => .ok none

/-- Function `TFTensorMul(tensor_a_ptr, tensor_b_ptr)`. -/
def TFTensorMul {α : Type} (B : TFBackend) (fmul : α → α → α)
    (tensor_a_ptr tensor_b_ptr : Option (TF_Tensor α)) : Exec (Option (TF_Tensor α)) :=
  match tensor_a_ptr, tensor_b_ptr with
  | some tensor_a, some tensor_b =>
      if tensor_a.dtype ≠ .TF_FLOAT ∨ tensor_b.dtype ≠ .TF_FLOAT then .ok none
      else if tensor_a.dims.length ≠ tensor_b.dims.length then .ok none
      else
        match dimLoop (tensor_a.dims.zip tensor_b.dims) ([], 1) with
        | none => .ok none
        | some (dims, num_elements) =>
            allocFillWrap B (fun x y => fmul x y) dims num_elements tensor_a.data tensor_b.data
  | _, _ => .ok none

/-- The scalar step of the division loop:
`if (data_b[i] == 0.0f) result_data[i] = INFINITY; else result_data[i] = data_a[i] / data_b[i];`
where `isZero y` is the comparison `y == 0.0f`. -/
def divElem {α : Type} (fdiv : α → α → α) (isZero : α → Bool) (INFINITY : α) (x y : α) : α :=
  if isZero y then INFINITY else fdiv x y

/-- Function `TFTensorDiv(tensor_a_ptr, tensor_b_ptr)`. -/
def TFTensorDiv {α : Type} (B : TFBackend) (fdiv : α → α → α) (isZero : α → Bool) (INFINITY : α)
    (tensor_a_ptr tensor_b_ptr : Option (TF_Tensor α)) : Exec (Option (TF_Tensor α)) :=
  match tensor_a_ptr, tensor_b_ptr with
  | some tensor_a, some tensor_b =>
      if tensor_a.dtype ≠ .TF_FLOAT ∨ tensor_b.dtype ≠ .TF_FLOAT then .ok none
      else if tensor_a.dims.length ≠ tensor_b.dims.length then .ok none
      else
        match dimLoop (tensor_a.dims.zip tensor_b.dims) ([], 1) with
        | none => .ok none
        | some (dims, num_elements) =>
            allocFillWrap B (divElem fdiv isZero INFINITY) dims num_elements
              tensor_a.data tensor_b.data
  | _, _ => .ok none

/-- Function `CreateTFTensor(values, dims, num_dims)`. The caller's buffers are lists: a read of
`dims[0 .. num_dims)` or of `data_size` bytes of `values` that leaves the buffer is undefined. -/
def CreateTFTensor {α : Type} (B : TFBackend) (values : Option (List α))
    (dims : Option (List Int)) (num_dims : Int) : Exec (Option (TF_Tensor α)) :=
  match values, dims with
  | some values, some dims =>
      if num_dims ≤ 0 then .ok none
      else if dims.length < num_dims.toNat then .undefined
      else
        let shape := dims.take num_dims.toNat
        let num_elements := shape.foldl (fun acc d => mulSizeT acc (toSizeT d)) 1
        let data_size := mulSizeT SIZEOF_FLOAT num_elements
        if B.malloc data_size = false then .ok none
        else if values.length * SIZEOF_FLOAT < data_size then .undefined
        else if B.TF_NewTensor .TF_FLOAT shape data_size = false then .ok none
        else .ok (some ⟨.TF_FLOAT, shape, values.take (data_size / SIZEOF_FLOAT)⟩)
  | _, _ => .ok none

/-- Number of elements of a shape, as a mathematical product. -/
def shapeNumel (dims : List Int) : Nat := (dims.map Int.toNat).prod

/-- What TensorFlow guarantees of a live tensor: no negative dimension and, for a float
tensor, a buffer of exactly `product(dims)` floats whose byte size fits `size_t`. -/
def TF_Tensor.Valid {α : Type} (t : TF_Tensor α) : Prop :=
  (∀ d ∈ t.dims, 0 ≤ d) ∧
  (t.dtype = .TF_FLOAT → t.data.length = shapeNumel t.dims ∧ SIZEOF_FLOAT * t.data.length < SIZE_MOD)

/-- A backend whose allocations and tensor constructions all succeed. -/
def TFBackend.AllocOk (B : TFBackend) : Prop :=
  (∀ n, B.malloc n = true) ∧ (∀ ty dims n, B.TF_NewTensor ty dims n = true)

/-- The backend that never fails. -/
def okBackend : TFBackend := ⟨fun _ => true, fun _ _ _ => true⟩

/-! ## IEEE-754 binary32 data -/

/-- A `float` by its three fields: sign bit, biased exponent, fraction. -/
structure F32 where
  sign : Bool
  expo : Fin 256
  frac : Fin (2 ^ 23)
  deriving DecidableEq

namespace F32

/-- A NaN: exponent all ones, fraction non-zero. -/
def isNaN (x : F32) : Bool := x.expo == 255 && x.frac != 0

/-- An infinity: exponent all ones, fraction zero. -/
def isInf (x : F32) : Bool := x.expo == 255 && x.frac == 0

/-- The comparison `x == 0.0f`: true of `+0` and of `-0`, of nothing else. -/
def isZero (x : F32) : Bool := x.expo == 0 && x.frac == 0

/-- The constant `INFINITY` of `<cmath>`: positive infinity. -/
def INFINITY : F32 := ⟨false, 255, 0⟩

/-- Negative infinity. -/
def negInfinity : F32 := ⟨true, 255, 0⟩

/-- The value `+0.0f`. -/
def posZero : F32 := ⟨false, 0, 0⟩

/-- The value `-0.0f`. -/
def negZero : F32 := ⟨true, 0, 0⟩

/-- The value `1.0f`. -/
def one : F32 := ⟨false, 127, 0⟩

/-- The value `-1.0f`. -/
def negOne : F32 := ⟨true, 127, 0⟩

/-- The IEEE-754 quotient by a zero divisor, as the standard words it: `r` is a quotient
`x / z` for `z = ±0` when `r` is a NaN if `x` is a NaN or a zero (invalid operation), and
otherwise the infinity whose sign is the exclusive or of the operands' signs
(divideByZero, and infinity divided by zero). -/
def isQuotientByZero (x z r : F32) : Bool :=
  if x.isNaN || x.isZero then r.isNaN
  else r == ⟨xor x.sign z.sign, 255, 0⟩

end F32

/-! ## IEEE-754 binary32 arithmetic

The operators `+`, `-` and `*` of `float` as the SSE instructions of an x86-64 build compute
them: IEEE-754 binary32, rounding to nearest with ties to even; a NaN operand is returned
quieted, the first one when both operands are NaN. A finite datum is an integer multiple of
`2 ^ -149`, so sums and products are computed exactly on integers and rounded once. -/

namespace F32

/-- The datum with the given fields, each reduced to its width. -/
def ofFields (sign : Bool) (expo frac : Nat) : F32 :=
  ⟨sign, ⟨expo % 256, Nat.mod_lt _ (by decide)⟩, ⟨frac % 2 ^ 23, Nat.mod_lt _ (Nat.two_pow_pos 23)⟩⟩

/-- Magnitude of a finite datum in units of `2 ^ -149`: the fraction of a subnormal, the
significand shifted by the exponent otherwise. -/
def magnitude (x : F32) : Nat :=
  if x.expo.val = 0 then x.frac.val else (2 ^ 23 + x.frac.val) * 2 ^ (x.expo.val - 1)

/-- A finite datum as a signed multiple of `2 ^ -149`. -/
def toScaled (x : F32) : Int := if x.sign then -(x.magnitude : Int) else x.magnitude

/-- Number of binary digits of `n` (for `n < 2 ^ fuel`). -/
def bitLength : Nat → Nat → Nat
  | 0, _ => 0
  | fuel + 1, n => if n = 0 then 0 else bitLength fuel (n / 2) + 1

/-- The datum `± q * 2 ^ (k - 149)` for a significand `q ≤ 2 ^ 24`, which is below `2 ^ 23`
only on the subnormal grid `k = 0`; past the largest finite exponent it is the infinity. -/
def encode (sign : Bool) (q k : Nat) : F32 :=
  if q < 2 ^ 23 then ofFields sign 0 q
  else if q = 2 ^ 24 then (if 253 ≤ k then ofFields sign 255 0 else ofFields sign (k + 2) 0)
  else if 254 ≤ k then ofFields sign 255 0
  else ofFields sign (k + 1) (q - 2 ^ 23)

/-- Rounding to nearest, ties to even: the datum nearest to `± mag * 2 ^ (-149 - scale)`. The
low `cut` bits of `mag` do not fit 24 significant bits on a grid no finer than `2 ^ -149`. -/
def round (sign : Bool) (mag scale : Nat) : F32 :=
  let cut := max scale (bitLength 600 mag - 24)
  let q := mag / 2 ^ cut
  let rest := mag % 2 ^ cut
  let up := decide (2 ^ cut < 2 * rest) || (decide (2 * rest = 2 ^ cut) && decide (q % 2 = 1))
  encode sign (if up then q + 1 else q) (cut - scale)

/-- A NaN with its quiet bit set, payload kept. -/
def quiet (x : F32) : F32 :=
  ofFields x.sign 255 (if x.frac.val < 2 ^ 22 then x.frac.val + 2 ^ 22 else x.frac.val)

/-- The NaN an invalid operation on non-NaN operands produces. -/
def defaultNaN : F32 := ofFields true 255 (2 ^ 22)

/-- The sum of two finite data: an exact zero sum is `-0` only when both operands are negative
(both are then `-0`), any other sum is rounded. -/
def addFinite (x y : F32) : F32 :=
  let total := x.toScaled + y.toScaled
  if total = 0 then ofFields (x.sign && y.sign) 0 0
  else round (decide (total < 0)) total.natAbs 0

/-- The operator `x + y` on `float`. -/
def add (x y : F32) : F32 :=
  if x.isNaN then x.quiet
  else if y.isNaN then y.quiet
  else if x.isInf && y.isInf then (if x.sign = y.sign then ofFields x.sign 255 0 else defaultNaN)
  else if x.isInf then ofFields x.sign 255 0
  else if y.isInf then ofFields y.sign 255 0
  else addFinite x y

/-- The operator `-x`. -/
def neg (x : F32) : F32 := ⟨!x.sign, x.expo, x.frac⟩

/-- The operator `x - y` on `float`. -/
def sub (x y : F32) : F32 :=
  if x.isNaN then x.quiet
  else if y.isNaN then y.quiet
  else add x y.neg

/-- The operator `x * y` on `float`. -/
def mul (x y : F32) : F32 :=
  if x.isNaN then x.quiet
  else if y.isNaN then y.quiet
  else if (x.isInf && y.isZero) || (x.isZero && y.isInf) then defaultNaN
  else if x.isInf || y.isInf then ofFields (xor x.sign y.sign) 255 0
  else round (xor x.sign y.sign) (x.magnitude * y.magnitude) 149

end F32

/-! ## Math-engine objects and the handle heap -/

/-- Conversion `int64_t → int` of a `return` statement (two's complement wrap). -/
def toInt32 (x : Int) : Int := (x + 2 ^ 31) % 2 ^ 32 - 2 ^ 31

/-- A live `at::Tensor`: `size(0 .. dim())` and its float contents. -/
structure ATensor where
  sizes : List Int
  data : List F32
  deriving DecidableEq

/-- The parameter tensors of a layer, what `parameters()` returns: their contents (the weight,
then the bias) and their gradients. -/
structure Parameters where
  params : List F32
  grads : List F32
  deriving DecidableEq

/-- A live `torch::optim::Optimizer`. It is built on `linear->parameters()`: it holds the
parameter tensors of the `LinearImpl` at address `layer` themselves, not copies, so the tensors
it reads and writes are those of the layer (and of every other optimizer built on it). -/
structure Optimizer where
  layer : Nat
  deriving DecidableEq

/-- The struct `ModelHandle`: a session pointer and a graph pointer (`none` is `nullptr`; a
graph is the list of its operation names). -/
structure ModelHandle where
  session : Option Nat
  graph : Option (List String)
  deriving DecidableEq

/-- A live `torch::nn::LinearImpl`: its features and its parameter tensors. -/
structure Linear where
  in_features : Int
  out_features : Int
  parameters : Parameters
  deriving DecidableEq

/-- What an address of the heap holds. -/
inductive Obj where
  | tensor (t : ATensor)
  | optimizer (o : Optimizer)
  | tfTensor (t : TF_Tensor F32)
  | model (m : ModelHandle)
  | linear (l : Linear)
  deriving DecidableEq

/-- The objects alive, by address. Address `0` is `nullptr` and holds nothing. -/
abbrev Heap := List (Nat × Obj)

/-- State around a call: the live objects and the libtorch functions invoked so far. -/
structure World where
  heap : Heap
  calls : List String
  deriving DecidableEq

/-- Answers of libtorch and of `operator new` for one call of a boundary function. For the
factories and `new`, `none` is a thrown `std::exception`; `step` and `zero_grad` give the
state in which they leave the parameter tensors of the optimizer and whether they threw. -/
structure TorchBackend where
  ones : Int → Int → Option ATensor
  zeros : Int → Int → Option ATensor
  rand : Int → Int → Option ATensor
  randn : Int → Int → Option ATensor
  from_blob_clone : List F32 → Int → Int → Option ATensor
  step : Parameters → Parameters × Bool
  zero_grad : Parameters → Parameters × Bool
  alloc : Heap → Option Nat

/-- What C++ guarantees of `new`: a non-null address that holds no live object. -/
def TorchBackend.FreshAlloc (T : TorchBackend) : Prop :=
  ∀ heap p, T.alloc heap = some p → p ≠ 0 ∧ heap.lookup p = none

/-- The object a handle points to, if it is alive. -/
def World.deref (w : World) (ptr : Nat) : Option Obj := w.heap.lookup ptr

/-- The effect of `delete` on the heap: the address holds nothing afterwards. -/
def World.release (w : World) (ptr : Nat) : World :=
  { w with heap := w.heap.filter (fun e => e.1 ≠ ptr) }

/-- The effect of `new T(obj)` at address `ptr`. -/
def World.store (w : World) (ptr : Nat) (obj : Obj) : World :=
  { w with heap := (ptr, obj) :: w.heap.filter (fun e => e.1 ≠ ptr) }

/-- Record the invocation of a libtorch function. -/
def World.call (w : World) (fn : String) : World :=
  { w with calls := w.calls ++ [fn] }

/-- The state in which a backend call leaves the layer at `layer` when it leaves its parameter
tensors as `parameters`. -/
def World.setParameters (w : World) (layer : Nat) (linear : Linear) (parameters : Parameters) :
    World :=
  w.store layer (.linear { linear with parameters := parameters })

/-- Function `TensorRows(ptr)` on a null pointer or a pointer to a live tensor. -/
def TensorRows (ptr : Option ATensor) : Int :=
  match ptr with
  | none => -1
  | some tensor =>
      match tensor.sizes with
      | [] => 1
      | [size0] => toInt32 size0
      | size0 :: _ :: _ => toInt32 size0

/-- Function `TensorCols(ptr)` on a null pointer or a pointer to a live tensor. -/
def TensorCols (ptr : Option ATensor) : Int :=
  match ptr with
  | none => -1
  | some tensor =>
      match tensor.sizes with
      | [] => 1
      | [_] => 1
      | _ :: size1 :: _ => toInt32 size1

/-- The values of type `int`. -/
abbrev FitsInt (x : Int) : Prop := -2 ^ 31 ≤ x ∧ x < 2 ^ 31

namespace Mem

/-- Function `CreateTensorOnes(rows, cols)`. -/
def CreateTensorOnes (T : TorchBackend) (rows cols : Int) (w : World) : Nat × World :=
  if rows ≤ 0 ∨ cols ≤ 0 then (0, w)
  else
    match T.ones rows cols with
    | none => (0, w.call "torch::ones")
    | some t =>
        match T.alloc w.heap with
        | none => (0, w.call "torch::ones")
        | some p => (p, (w.call "torch::ones").store p (.tensor t))

/-- Function `CreateTensorZeros(rows, cols)`. -/
def CreateTensorZeros (T : TorchBackend) (rows cols : Int) (w : World) : Nat × World :=
  if rows ≤ 0 ∨ cols ≤ 0 then (0, w)
  else
    match T.zeros rows cols with
    | none => (0, w.call "torch::zeros")
    | some t =>
        match T.alloc w.heap with
        | none => (0, w.call "torch::zeros")
        | some p => (p, (w.call "torch::zeros").store p (.tensor t))

/-- Function `CreateTensorRand(rows, cols)`. -/
def CreateTensorRand (T : TorchBackend) (rows cols : Int) (w : World) : Nat × World :=
  if rows ≤ 0 ∨ cols ≤ 0 then (0, w)
  else
    match T.rand rows cols with
    | none => (0, w.call "torch::rand")
    | some t =>
        match T.alloc w.heap with
        | none => (0, w.call "torch::rand")
        | some p => (p, (w.call "torch::rand").store p (.tensor t))

/-- Function `CreateTensorRandn(rows, cols)`. -/
def CreateTensorRandn (T : TorchBackend) (rows cols : Int) (w : World) : Nat × World :=
  if rows ≤ 0 ∨ cols ≤ 0 then (0, w)
  else
    match T.randn rows cols with
    | none => (0, w.call "torch::randn")
    | some t =>
        match T.alloc w.heap with
        | none => (0, w.call "torch::randn")
        | some p => (p, (w.call "torch::randn").store p (.tensor t))

/-- Function `CreateMatrixTensor(values, rows, cols)`: `torch::from_blob` reads `rows * cols` floats of
the caller's buffer, which is undefined if the buffer is shorter. -/
def CreateMatrixTensor (T : TorchBackend) (values : Option (List F32)) (rows cols : Int)
    (w : World) : Exec (Nat × World) :=
  match values with
  | none => .ok (0, w)
  | some values =>
      if rows ≤ 0 ∨ cols ≤ 0 then .ok (0, w)
      else if values.length < (rows * cols).toNat then .undefined
      else
        match T.from_blob_clone values rows cols with
        | none => .ok (0, w.call "torch::from_blob")
        | some t =>
            match T.alloc w.heap with
            | none => .ok (0, w.call "torch::from_blob")
            | some p => .ok (p, (w.call "torch::from_blob").store p (.tensor t))

/-- Function `FreeTensor(ptr)`: `if (tensor) delete tensor;` with no other check. Deleting through a
pointer that does not point to a live `at::Tensor` is undefined. -/
def FreeTensor (ptr : Nat) (w : World) : Exec World :=
  if ptr = 0 then .ok w
  else
    match w.deref ptr with
    | some (.tensor _) => .ok (w.release ptr)
    | _ => .undefined

/-- Function `FreeOptimizer(ptr)`: `if (optimizer) delete optimizer;`. -/
def FreeOptimizer (ptr : Nat) (w : World) : Exec World :=
  if ptr = 0 then .ok w
  else
    match w.deref ptr with
    | some (.optimizer _) => .ok (w.release ptr)
    | _ => .undefined

/-- Function `FreeTFTensor(tensor_ptr)`: `if (tensor) TF_DeleteTensor(tensor);`. -/
def FreeTFTensor (tensor_ptr : Nat) (w : World) : Exec World :=
  if tensor_ptr = 0 then .ok w
  else
    match w.deref tensor_ptr with
    | some (.tfTensor _) => .ok (w.release tensor_ptr)
    | _ => .undefined

/-- Function `FreeModel(model_handle)`: reports a null handle and returns; otherwise closes and deletes
the session and the graph when present and deletes the handle. -/
def FreeModel (model_handle : Nat) (w : World) : Exec World :=
  if model_handle = 0 then .ok w
  else
    match w.deref model_handle with
    | some (.model _) => .ok (w.release model_handle)
    | _ => .undefined

/-- Function `TensorRows(ptr)` on a raw handle: `-1` for null, otherwise the pointer is dereferenced as
an `at::Tensor`. -/
def TensorRows (ptr : Nat) (w : World) : Exec Int :=
  if ptr = 0 then .ok (-1)
  else
    match w.deref ptr with
    | some (.tensor t) => .ok (CopperIA.TensorRows (some t))
    | _ => .undefined

/-- Function `TensorCols(ptr)` on a raw handle. -/
def TensorCols (ptr : Nat) (w : World) : Exec Int :=
  if ptr = 0 then .ok (-1)
  else
    match w.deref ptr with
    | some (.tensor t) => .ok (CopperIA.TensorCols (some t))
    | _ => .undefined

/-- Function `OptimizerStep(optimizer_ptr)` on a raw handle: nothing for null, otherwise the pointer is
dereferenced as a `torch::optim::Optimizer`. `step()` writes the parameter tensors, which are
those of the layer the optimizer was built on, and `zero_grad()` follows unless `step()` threw.
The library has no function that frees a layer; were the layer gone, the tensors would be held
by the optimizer alone and the calls would change nothing a handle shows. -/
def OptimizerStep (T : TorchBackend) (optimizer_ptr : Nat) (w : World) : Exec World :=
  if optimizer_ptr = 0 then .ok w
  else
    match w.deref optimizer_ptr with
    | some (.optimizer o) =>
        match w.deref o.layer with
        | some (.linear linear) =>
            let stepped := T.step linear.parameters
            if stepped.2 then
              .ok ((w.call "Optimizer::step").setParameters o.layer linear stepped.1)
            else
              .ok (((w.call "Optimizer::step").call "Optimizer::zero_grad").setParameters
                o.layer linear (T.zero_grad stepped.1).1)
        | _ => .ok ((w.call "Optimizer::step").call "Optimizer::zero_grad")
    | _ => .undefined

/-- Function `OptimizerZeroGrad(optimizer_ptr)` on a raw handle. -/
def OptimizerZeroGrad (T : TorchBackend) (optimizer_ptr : Nat) (w : World) : Exec World :=
  if optimizer_ptr = 0 then .ok w
  else
    match w.deref optimizer_ptr with
    | some (.optimizer o) =>
        match w.deref o.layer with
        | some (.linear linear) =>
            .ok ((w.call "Optimizer::zero_grad").setParameters o.layer linear
              (T.zero_grad linear.parameters).1)
        | _ => .ok (w.call "Optimizer::zero_grad")
    | _ => .undefined

end Mem

/-! ## Modules, losses, transforms and statistics of the math engine -/

/-- Answers of libtorch's computations for one call of a boundary function; `none` is a thrown
`std::exception`. `argmax` and `argmin` give the `int64_t` element of the index tensor. -/
structure TorchMath where
  forward : Linear → ATensor → Option ATensor
  mse_loss : ATensor → ATensor → Option ATensor
  cross_entropy_loss : ATensor → ATensor → Option ATensor
  /-- Whether the constructor `torch::optim::SGD(linear->parameters(), lr)` returns. -/
  sgd : Linear → F32 → Bool
  /-- Whether the constructor `torch::optim::Adam(linear->parameters(), lr)` returns. -/
  adam : Linear → F32 → Bool
  relu : ATensor → Option ATensor
  sigmoid : ATensor → Option ATensor
  tanh : ATensor → Option ATensor
  sin : ATensor → Option ATensor
  cos : ATensor → Option ATensor
  exp : ATensor → Option ATensor
  log : ATensor → Option ATensor
  sqrt : ATensor → Option ATensor
  abs : ATensor → Option ATensor
  pow : ATensor → F32 → Option ATensor
  zeros_like : ATensor → Option ATensor
  ones_like : ATensor → Option ATensor
  std : ATensor → Option F32
  var : ATensor → Option F32
  argmax : ATensor → Option Int
  argmin : ATensor → Option Int

namespace Mem

/-- The end every tensor-returning function shares: `new at::Tensor(result)` of the value the
libtorch function `fn` computed, `nullptr` when `fn` or `new` threw. -/
def wrapResult (T : TorchBackend) (fn : String) (result : Option ATensor) (w : World) :
    Nat × World :=
  match result with
  | none => (0, w.call fn)
  | some r =>
      match T.alloc w.heap with
      | none => (0, w.call fn)
      | some p => (p, (w.call fn).store p (.tensor r))

/-- The text the unary transforms share: the null test, the pointer read as an `at::Tensor`,
the libtorch function `fn`, the new tensor. -/
def unaryOp (T : TorchBackend) (fn : String) (f : ATensor → Option ATensor) (tensor_ptr : Nat)
    (w : World) : Exec (Nat × World) :=
  if tensor_ptr = 0 then .ok (0, w)
  else
    match w.deref tensor_ptr with
    | some (.tensor tensor) => .ok (wrapResult T fn (f tensor) w)
    | _ => .undefined

/-- Function `TensorReLU(tensor_ptr)`. -/
def TensorReLU (T : TorchBackend) (M : TorchMath) (tensor_ptr : Nat) (w : World) :
    Exec (Nat × World) := unaryOp T "torch::relu" M.relu tensor_ptr w

/-- Function `TensorSigmoid(tensor_ptr)`. -/
def TensorSigmoid (T : TorchBackend) (M : TorchMath) (tensor_ptr : Nat) (w : World) :
    Exec (Nat × World) := unaryOp T "torch::sigmoid" M.sigmoid tensor_ptr w

/-- Function `TensorTanh(tensor_ptr)`. -/
def TensorTanh (T : TorchBackend) (M : TorchMath) (tensor_ptr : Nat) (w : World) :
    Exec (Nat × World) := unaryOp T "torch::tanh" M.tanh tensor_ptr w

/-- Function `TensorSin(tensor_ptr)`. -/
def TensorSin (T : TorchBackend) (M : TorchMath) (tensor_ptr : Nat) (w : World) :
    Exec (Nat × World) := unaryOp T "torch::sin" M.sin tensor_ptr w

/-- Function `TensorCos(tensor_ptr)`. -/
def TensorCos (T : TorchBackend) (M : TorchMath) (tensor_ptr : Nat) (w : World) :
    Exec (Nat × World) := unaryOp T "torch::cos" M.cos tensor_ptr w

/-- Function `TensorExp(tensor_ptr)`. -/
def TensorExp (T : TorchBackend) (M : TorchMath) (tensor_ptr : Nat) (w : World) :
    Exec (Nat × World) := unaryOp T "torch::exp" M.exp tensor_ptr w

/-- Function `TensorLog(tensor_ptr)`. -/
def TensorLog (T : TorchBackend) (M : TorchMath) (tensor_ptr : Nat) (w : World) :
    Exec (Nat × World) := unaryOp T "torch::log" M.log tensor_ptr w

/-- Function `TensorSqrt(tensor_ptr)`. -/
def TensorSqrt (T : TorchBackend) (M : TorchMath) (tensor_ptr : Nat) (w : World) :
    Exec (Nat × World) := unaryOp T "torch::sqrt" M.sqrt tensor_ptr w

/-- Function `TensorAbs(tensor_ptr)`. -/
def TensorAbs (T : TorchBackend) (M : TorchMath) (tensor_ptr : Nat) (w : World) :
    Exec (Nat × World) := unaryOp T "torch::abs" M.abs tensor_ptr w

/-- Function `TensorPow(tensor_ptr, exponent)`. -/
def TensorPow (T : TorchBackend) (M : TorchMath) (tensor_ptr : Nat) (exponent : F32)
    (w : World) : Exec (Nat × World) :=
  unaryOp T "torch::pow" (fun tensor => M.pow tensor exponent) tensor_ptr w

/-- Function `TensorZerosLike(tensor_ptr)`. -/
def TensorZerosLike (T : TorchBackend) (M : TorchMath) (tensor_ptr : Nat) (w : World) :
    Exec (Nat × World) := unaryOp T "torch::zeros_like" M.zeros_like tensor_ptr w

/-- Function `TensorOnesLike(tensor_ptr)`. -/
def TensorOnesLike (T : TorchBackend) (M : TorchMath) (tensor_ptr : Nat) (w : World) :
    Exec (Nat × World) := unaryOp T "torch::ones_like" M.ones_like tensor_ptr w

/-- Function `LinearForward(linear_ptr, input_tensor_ptr)`. -/
def LinearForward (T : TorchBackend) (M : TorchMath) (linear_ptr input_tensor_ptr : Nat)
    (w : World) : Exec (Nat × World) :=
  if linear_ptr = 0 ∨ input_tensor_ptr = 0 then .ok (0, w)
  else
    match w.deref linear_ptr, w.deref input_tensor_ptr with
    | some (.linear linear), some (.tensor input) =>
        .ok (wrapResult T "Linear::forward" (M.forward linear input) w)
    | _, _ => .undefined

/-- Function `MSELoss(prediction_tensor_ptr, target_tensor_ptr)`. The libtorch answer covers
`torch::mse_loss` and the `item<float>()` of the debugging output; a tensor leaked by an
exception after `new` is not kept in the state. -/
def MSELoss (T : TorchBackend) (M : TorchMath) (prediction_tensor_ptr target_tensor_ptr : Nat)
    (w : World) : Exec (Nat × World) :=
  if prediction_tensor_ptr = 0 ∨ target_tensor_ptr = 0 then .ok (0, w)
  else
    match w.deref prediction_tensor_ptr, w.deref target_tensor_ptr with
    | some (.tensor prediction), some (.tensor target) =>
        .ok (wrapResult T "torch::mse_loss" (M.mse_loss prediction target) w)
    | _, _ => .undefined

/-- Function `CrossEntropyLoss(prediction_tensor_ptr, target_tensor_ptr)`. -/
def CrossEntropyLoss (T : TorchBackend) (M : TorchMath)
    (prediction_tensor_ptr target_tensor_ptr : Nat) (w : World) : Exec (Nat × World) :=
  if prediction_tensor_ptr = 0 ∨ target_tensor_ptr = 0 then .ok (0, w)
  else
    match w.deref prediction_tensor_ptr, w.deref target_tensor_ptr with
    | some (.tensor prediction), some (.tensor target) =>
        .ok (wrapResult T "torch::cross_entropy_loss"
          (M.cross_entropy_loss prediction target) w)
    | _, _ => .undefined

/-- The end `CreateSGD` and `CreateAdam` share: `new` of the optimizer the constructor `fn`
built, `nullptr` when the constructor or `new` threw. -/
def wrapOptimizer (T : TorchBackend) (fn : String) (result : Option Optimizer) (w : World) :
    Nat × World :=
  match result with
  | none => (0, w.call fn)
  | some o =>
      match T.alloc w.heap with
      | none => (0, w.call fn)
      | some p => (p, (w.call fn).store p (.optimizer o))

/-- Function `CreateSGD(linear_ptr, lr)`: the optimizer is built on `linear->parameters()`, the
parameter tensors of the layer at `linear_ptr`. -/
def CreateSGD (T : TorchBackend) (M : TorchMath) (linear_ptr : Nat) (lr : F32) (w : World) :
    Exec (Nat × World) :=
  if linear_ptr = 0 then .ok (0, w)
  else
    match w.deref linear_ptr with
    | some (.linear linear) =>
        .ok (wrapOptimizer T "torch::optim::SGD"
          (if M.sgd linear lr then some ⟨linear_ptr⟩ else none) w)
    | _ => .undefined

/-- Function `CreateAdam(linear_ptr, lr)`. -/
def CreateAdam (T : TorchBackend) (M : TorchMath) (linear_ptr : Nat) (lr : F32) (w : World) :
    Exec (Nat × World) :=
  if linear_ptr = 0 then .ok (0, w)
  else
    match w.deref linear_ptr with
    | some (.linear linear) =>
        .ok (wrapOptimizer T "torch::optim::Adam"
          (if M.adam linear lr then some ⟨linear_ptr⟩ else none) w)
    | _ => .undefined

/-- Function `TensorData(ptr)`: the buffer `data_ptr<float>()` names, `none` for `nullptr`. -/
def TensorData (ptr : Nat) (w : World) : Exec (Option (List F32)) :=
  if ptr = 0 then .ok none
  else
    match w.deref ptr with
    | some (.tensor tensor) => .ok (some tensor.data)
    | _ => .undefined

end Mem

/-- What libtorch documents of `zero_grad`: it does not throw, leaves the parameters alone and
clears every gradient. -/
def TorchBackend.ZeroGradClears (T : TorchBackend) : Prop :=
  ∀ o, (T.zero_grad o).2 = false ∧ (T.zero_grad o).1.params = o.params ∧
    (T.zero_grad o).1.grads = o.grads.map (fun _ => F32.posZero)

/-- Parameter tensors whose gradients are all cleared. -/
def Parameters.GradsCleared (o : Parameters) : Prop := ∀ g ∈ o.grads, g = F32.posZero

/-! ## Session execution -/

/-- Answers of TensorFlow and of the C++ library for one call of `RunSession`. -/
structure SessionBackend (α : Type) where
  /-- Call `TF_SessionRun` on a session with the input operations and their tensors and the
  output operations: whether the status is `TF_OK`, and the tensors stored in
  `tf_output_tensors`, by index (an index it does not reach keeps `nullptr`). -/
  TF_SessionRun : Nat → List (String × TF_Tensor α) → List String →
    Bool × List (Option (TF_Tensor α))
  /-- Whether `data()` of an empty `std::vector` is a non-null pointer. -/
  emptyVectorData : Bool

/-- What a call of `RunSession` leaves: whether the pointer returned is non-null, the caller's
array `output_tensors` after the call, and the TensorFlow functions invoked, in order. -/
structure RunOutcome (α : Type) where
  ret : Bool
  output_tensors : List (Option (TF_Tensor α))
  calls : List String
  deriving DecidableEq

/-- The loop over `input_tensors[0 .. n)`: a null tensor ends it (`none`), any other has its
rank and dimensions printed. Gives the tensors and the TensorFlow functions invoked; reading
past the end of the caller's array is undefined. -/
def inputLoop {α : Type} :
    Nat → List (Option (TF_Tensor α)) → Exec (Option (List (TF_Tensor α)) × List String)
  | 0, _ => .ok (some [], [])
  | _ + 1, [] => .undefined
  | _ + 1, none :: _ => .ok (none, [])
  | n + 1, some t :: rest =>
      match inputLoop n rest with
      | .undefined => .undefined
      | .ok (r, calls) =>
          .ok (r.map (fun ts => t :: ts),
            ("TF_NumDims" :: List.replicate t.dims.length "TF_Dim") ++ calls)

/-- The loop resolving `names[0 .. n)` with `TF_GraphOperationByName`: `false` when a name has no
operation in the graph, which ends the loop. -/
def nameLoop (graph : List String) : Nat → List String → Exec (Bool × List String)
  | 0, _ => .ok (true, [])
  | _ + 1, [] => .undefined
  | n + 1, name :: rest =>
      if graph.contains name then
        match nameLoop graph n rest with
        | .undefined => .undefined
        | .ok (found, calls) => .ok (found, "TF_GraphOperationByName" :: calls)
      else .ok (false, ["TF_GraphOperationByName"])

/-- The debugging loop over the tensors the session produced: of each non-null one it prints the
rank, the dimensions, and `data[k]` for `k < min(num_elements, 10)`, the buffer read as floats;
a read past the end of the buffer is undefined. -/
def printLoop {α : Type} : List (Option (TF_Tensor α)) → Exec (List String)
  | [] => .ok []
  | none :: rest => printLoop rest
  | some t :: rest =>
      let num_elements := t.dims.foldl (fun acc d => mulSizeT acc (toSizeT d)) 1
      if t.data.length < min num_elements 10 then .undefined
      else
        match printLoop rest with
        | .undefined => .undefined
        | .ok calls =>
            .ok (("TF_NumDims" :: List.replicate t.dims.length "TF_Dim") ++
              List.replicate t.dims.length "TF_Dim" ++ ["TF_TensorData"] ++ calls)

/-- Function `RunSession(model_handle, input_names, input_tensors, num_inputs, output_names,
output_tensors, num_outputs)`. The arrays of the caller are lists, read and written by index;
a negative count makes the `std::vector` constructor throw, which the `catch` turns into
`nullptr`. -/
def RunSession {α : Type} (S : SessionBackend α) (model_handle : Option ModelHandle)
    (input_names : List String) (input_tensors : List (Option (TF_Tensor α))) (num_inputs : Int)
    (output_names : List String) (output_tensors : List (Option (TF_Tensor α)))
    (num_outputs : Int) : Exec (RunOutcome α) :=
  match model_handle with
  | none => .ok ⟨false, output_tensors, []⟩
  | some handle =>
      match handle.session, handle.graph with
      | some session, some graph =>
          if num_inputs < 0 then .ok ⟨false, output_tensors, ["TF_NewStatus"]⟩
          else
            match inputLoop num_inputs.toNat input_tensors with
            | .undefined => .undefined
            | .ok (none, c1) =>
                .ok ⟨false, output_tensors, ["TF_NewStatus"] ++ c1 ++ ["TF_DeleteStatus"]⟩
            | .ok (some inputs, c1) =>
                match nameLoop graph num_inputs.toNat input_names with
                | .undefined => .undefined
                | .ok (false, c2) =>
                    .ok ⟨false, output_tensors,
                      ["TF_NewStatus"] ++ c1 ++ c2 ++ ["TF_DeleteStatus"]⟩
                | .ok (true, c2) =>
                    if num_outputs < 0 then
                      .ok ⟨false, output_tensors, ["TF_NewStatus"] ++ c1 ++ c2⟩
                    else
                      match nameLoop graph num_outputs.toNat output_names with
                      | .undefined => .undefined
                      | .ok (false, c3) =>
                          .ok ⟨false, output_tensors,
                            ["TF_NewStatus"] ++ c1 ++ c2 ++ c3 ++ ["TF_DeleteStatus"]⟩
                      | .ok (true, c3) =>
                          if output_tensors.length < num_outputs.toNat then .undefined
                          else
                            let cleared := List.replicate num_outputs.toNat none ++
                              output_tensors.drop num_outputs.toNat
                            let ran := S.TF_SessionRun session
                              ((input_names.take num_inputs.toNat).zip inputs)
                              (output_names.take num_outputs.toNat)
                            let c4 := ["TF_NewStatus"] ++ c1 ++ c2 ++ c3 ++
                              ["TF_SessionRun", "TF_GetCode"]
                            if ran.1 = false then
                              .ok ⟨false, cleared, c4 ++ ["TF_Message", "TF_DeleteStatus"]⟩
                            else
                              let tf_output_tensors := (List.range num_outputs.toNat).map
                                (fun i => ran.2.getD i none)
                              match printLoop tf_output_tensors with
                              | .undefined => .undefined
                              | .ok c5 =>
                                  .ok ⟨decide (0 < num_outputs) || S.emptyVectorData,
                                    tf_output_tensors ++ output_tensors.drop num_outputs.toNat,
                                    c4 ++ c5 ++ ["TF_DeleteStatus"]⟩
      | _, _ => .ok ⟨false, output_tensors, []⟩

/-! ## Graph-engine tensors with their buffers in memory -/

/-- The float arrays in memory, by address: arrays of the caller and blocks `malloc` returned.
Address `0` is `nullptr`. -/
abbrev Arrays (α : Type) := List (Nat × List α)

/-- A live `TF_Tensor` whose buffer is named by its address `TF_TensorData(t)`. -/
structure TF_TensorRef where
  dtype : TF_DataType
  dims : List Int
  data_ptr : Nat
  deriving DecidableEq

namespace Mem

/-- Function `CreateTFTensor(values, dims, num_dims)` with the buffers in memory: `values` is the
address of the caller's array (an address that names no array has no readable element),
`block` the address `malloc` returns when it succeeds. The new tensor refers to the block, which
holds what `memcpy` copied. Returns the tensor and the memory. -/
def CreateTFTensor {α : Type} (B : TFBackend) (block : Nat) (mem : Arrays α) (values : Nat)
    (dims : Option (List Int)) (num_dims : Int) : Exec (Option TF_TensorRef × Arrays α) :=
  let buffer : Option (List α) :=
    if values = 0 then none else some ((mem.lookup values).getD [])
  match CopperIA.CreateTFTensor B buffer dims num_dims with
  | .undefined => .undefined
  | .ok none => .ok (none, mem)
  | .ok (some t) => .ok (some ⟨t.dtype, t.dims, block⟩, (block, t.data) :: mem)

/-- Function `GetTensorData(tensor_ptr)`: the address of the tensor's buffer, `0` for a null
tensor, for a tensor that is not of type `TF_FLOAT`, and when the buffer address is null. -/
def GetTensorData (tensor_ptr : Option TF_TensorRef) : Nat :=
  match tensor_ptr with
  | none => 0
  | some tensor =>
      if tensor.dtype ≠ .TF_FLOAT then 0
      else if tensor.data_ptr = 0 then 0
      else tensor.data_ptr

end Mem

/-- The text the four arithmetic functions have in common, with the scalar operation of the
element loop as a parameter. Used to prove facts about the four at once. -/
def elementwiseOp {α : Type} (B : TFBackend) (f : α → α → α)
    (tensor_a_ptr tensor_b_ptr : Option (TF_Tensor α)) : Exec (Option (TF_Tensor α)) :=
  match tensor_a_ptr, tensor_b_ptr with
  | some tensor_a, some tensor_b =>
      if tensor_a.dtype ≠ .TF_FLOAT ∨ tensor_b.dtype ≠ .TF_FLOAT then .ok none
      else if tensor_a.dims.length ≠ tensor_b.dims.length then .ok none
      else
        match dimLoop (tensor_a.dims.zip tensor_b.dims) ([], 1) with
        | none => .ok none
        | some (dims, num_elements) =>
            allocFillWrap B f dims num_elements tensor_a.data tensor_b.data
  | _, _ => .ok none

/-- Operands accepted by the arithmetic functions: both of type `TF_FLOAT`, same dimensions. -/
def Compatible {α : Type} (a b : TF_Tensor α) : Prop :=
  a.dtype = .TF_FLOAT ∧ b.dtype = .TF_FLOAT ∧ a.dims = b.dims

/-! ## Concrete data for the closed statements -/

/-- An `int32` tensor of shape `[2]`; its 8-byte buffer reads as two `float`s. -/
def int32A : TF_Tensor Int := ⟨.TF_INT32, [2], [7, 9]⟩

/-- A second `int32` tensor of shape `[2]`. -/
def int32B : TF_Tensor Int := ⟨.TF_INT32, [2], [1, 4]⟩

/-- A float tensor of shape `[2]` with the elements `6.0`, `10.0`. In the closed statements
the elements are integers and the arithmetic on them is exact, as float arithmetic is on these
data; no divisor is zero there, so the `INFINITY` argument of the division is not reached. -/
def floatA : TF_Tensor Int := ⟨.TF_FLOAT, [2], [6, 10]⟩

/-- A float tensor of shape `[2]` with the elements `3.0`, `5.0`. -/
def floatB : TF_Tensor Int := ⟨.TF_FLOAT, [2], [3, 5]⟩

/-- A float tensor of shape `[3]` holding `-1.0f`, `1.0f`, `+0.0f`. -/
def numerators : TF_Tensor F32 := ⟨.TF_FLOAT, [3], [F32.negOne, F32.one, F32.posZero]⟩

/-- A float tensor of shape `[3]` holding `+0.0f`, `-0.0f`, `+0.0f`. -/
def zeroDivisors : TF_Tensor F32 := ⟨.TF_FLOAT, [3], [F32.posZero, F32.negZero, F32.posZero]⟩

/-- A float tensor of shape `[1]` holding `+0.0f`. -/
def zeroVec : TF_Tensor F32 := ⟨.TF_FLOAT, [1], [F32.posZero]⟩

/-- A float tensor of shape `[1]` holding `1.0f`. -/
def oneVec : TF_Tensor F32 := ⟨.TF_FLOAT, [1], [F32.one]⟩

/-- Stand-in for the hardware division in closed statements whose divisors are all zero, where
the division branch of the loop is never taken. -/
def F32.divUnreached : F32 → F32 → F32 := fun _ _ => ⟨false, 255, 1⟩

/-- The first address from `1` on that holds nothing: an allocator that hands a released
address out again, as free-list allocators do. -/
def firstFree (heap : Heap) : Option Nat :=
  ((List.range (heap.length + 1)).map (fun k => k + 1)).find? (fun p => (heap.lookup p).isNone)

/-- A libtorch that never throws: constant-filled factories, a copying `from_blob`, a `step`
that finds nothing to update, a `zero_grad` that zeroes the gradients, first-fit `new`. -/
def exTorch : TorchBackend where
  ones := fun rows cols => some ⟨[rows, cols], List.replicate (rows * cols).toNat F32.one⟩
  zeros := fun rows cols => some ⟨[rows, cols], List.replicate (rows * cols).toNat F32.posZero⟩
  rand := fun rows cols => some ⟨[rows, cols], List.replicate (rows * cols).toNat F32.posZero⟩
  randn := fun rows cols => some ⟨[rows, cols], List.replicate (rows * cols).toNat F32.negOne⟩
  from_blob_clone := fun values rows cols => some ⟨[rows, cols], values.take (rows * cols).toNat⟩
  step := fun o => (o, false)
  zero_grad := fun o => (⟨o.params, o.grads.map (fun _ => F32.posZero)⟩, false)
  alloc := firstFree

/-- The state before any call. -/
def emptyWorld : World := ⟨[], []⟩

/-- The state after `CreateTensorOnes(2, 3)` on the empty state; the handle returned is `1`. -/
def heldWorld : World := (Mem.CreateTensorOnes exTorch 2 3 emptyWorld).2

/-- The state after `FreeTensor` of that handle. -/
def freedWorld : World := heldWorld.release 1

/-- The state after a later `CreateTensorOnes(5, 4)`, whose tensor takes the released address. -/
def reusedWorld : World := (Mem.CreateTensorOnes exTorch 5 4 freedWorld).2

/-- A state with one live object of each kind, at the addresses `1` to `5`; the optimizer is
built on the layer at `5`. -/
def zooWorld : World :=
  ⟨[(1, .tensor ⟨[2, 3], List.replicate 6 F32.one⟩),
    (2, .optimizer ⟨5⟩),
    (3, .tfTensor oneVec),
    (4, .model ⟨some 1, some ["input", "output"]⟩),
    (5, .linear ⟨1, 1, ⟨[F32.one, F32.one], [F32.posZero, F32.posZero]⟩⟩)], []⟩

/-- A tensor without elements whose first size is `2 ^ 31`, one past the largest `int`. -/
def tallTensor : ATensor := ⟨[2 ^ 31, 0], []⟩

/-- A tensor without elements whose second size is `2 ^ 32 + 3`. -/
def wideTensor : ATensor := ⟨[0, 2 ^ 32 + 3], []⟩

/-- A backend whose `malloc` succeeds and whose `TF_NewTensor` answers `NULL` to a float buffer
shorter than the shape asks for, the test being TensorFlow's `len < elem_size * NumElements`
with the product taken in `size_t`, on a shape without negative dimension whose element count
fits `int64_t`. -/
def lengthTestBackend : TFBackend :=
  ⟨fun _ => true,
   fun _ dims len => decide (∀ d ∈ dims, 0 ≤ d) && decide (shapeNumel dims < 2 ^ 63) &&
     !decide (len < mulSizeT SIZEOF_FLOAT (shapeNumel dims))⟩

/-- A memory with one array of the caller, `[6, 10, 3, 5]` at address `7`. -/
def callerMem : Arrays Int := [(7, [6, 10, 3, 5])]

/-- A loaded model whose graph has the operations `input` and `output`. -/
def exModel : ModelHandle := ⟨some 1, some ["input", "output"]⟩

/-- A session that succeeds and stores the first input tensor as every output. -/
def exSession : SessionBackend Int :=
  ⟨fun _ inputs outputs => (true, outputs.map (fun _ => (inputs.head?).map (fun e => e.2))), false⟩

/-- A libtorch whose computations never throw and return their (first) operand. -/
def exMath : TorchMath where
  forward := fun _ input => some input
  mse_loss := fun prediction _ => some ⟨[], prediction.data.take 1⟩
  cross_entropy_loss := fun prediction _ => some ⟨[], prediction.data.take 1⟩
  sgd := fun _ _ => true
  adam := fun _ _ => true
  relu := fun t => some t
  sigmoid := fun t => some t
  tanh := fun t => some t
  sin := fun t => some t
  cos := fun t => some t
  exp := fun t => some t
  log := fun t => some t
  sqrt := fun t => some t
  abs := fun t => some t
  pow := fun t _ => some t
  zeros_like := fun t => some ⟨t.sizes, t.data.map (fun _ => F32.posZero)⟩
  ones_like := fun t => some ⟨t.sizes, t.data.map (fun _ => F32.one)⟩
  std := fun _ => some F32.posZero
  var := fun _ => some F32.posZero
  argmax := fun _ => some 0
  argmin := fun _ => some 0

/-- A libtorch like `exTorch` whose `step` is a gradient-descent step of learning rate `1.0f`:
each parameter loses its gradient. -/
def sgdTorch : TorchBackend :=
  { exTorch with
    step := fun o => (⟨List.zipWith F32.sub o.params o.grads, o.grads⟩, false) }

/-- A state with a `Linear(1, 1)` layer at address `1`, weight `1.0f` and bias `1.0f` with the
gradients `1.0f` and `+0.0f`, and two optimizers built on it, at the addresses `2` and `3`. -/
def trainingWorld : World :=
  ⟨[(1, .linear ⟨1, 1, ⟨[F32.one, F32.one], [F32.one, F32.posZero]⟩⟩),
    (2, .optimizer ⟨1⟩), (3, .optimizer ⟨1⟩)], []⟩

/-- A call of `RunSession` with a valid model handle (session and graph non-null), non-null
input tensors, and counts that are the lengths of the name arrays. -/
def runOnModel {α : Type} (S : SessionBackend α) (session : Nat) (graph : List String)
    (input_names : List String) (inputs : List (TF_Tensor α)) (output_names : List String)
    (output_tensors : List (Option (TF_Tensor α))) : Exec (RunOutcome α) :=
  RunSession S (some ⟨some session, some graph⟩) input_names (inputs.map some)
    input_names.length output_names output_tensors output_names.length

/-- What an outcome shows when the elements are left aside: undefined, the null sentinel, or a
tensor of some element type and shape. -/
def Exec.shape {α : Type} : Exec (Option (TF_Tensor α)) → Exec (Option (TF_DataType × List Int))
  | .undefined => .undefined
  | .ok none => .ok none
  | .ok (some t) => .ok (some (t.dtype, t.dims))

/-- A session whose run reports an error and stores no tensor. -/
def failSession : SessionBackend Int := ⟨fun _ _ _ => (false, []), false⟩

/-- A tensor the debugging loop of `RunSession` can print: its buffer, read as floats, has the
`min(num_elements, 10)` elements the loop reads. -/
def TF_Tensor.Printable {α : Type} (t : TF_Tensor α) : Prop :=
  min (t.dims.foldl (fun acc d => mulSizeT acc (toSizeT d)) 1) 10 ≤ t.data.length

set_option maxRecDepth 100000

set_option exponentiation.threshold 1024

theorem TFTensorAdd_eq {α : Type} (B : TFBackend) (fadd : α → α → α)
    (pa pb : Option (TF_Tensor α)) : TFTensorAdd B fadd pa pb = elementwiseOp B fadd pa pb := rfl

theorem TFTensorSub_eq {α : Type} (B : TFBackend) (fsub : α → α → α)
    (pa pb : Option (TF_Tensor α)) : TFTensorSub B fsub pa pb = elementwiseOp B fsub pa pb := rfl

theorem TFTensorMul_eq {α : Type} (B : TFBackend) (fmul : α → α → α)
    (pa pb : Option (TF_Tensor α)) : TFTensorMul B fmul pa pb = elementwiseOp B fmul pa pb := rfl

theorem TFTensorDiv_eq {α : Type} (B : TFBackend) (fdiv : α → α → α) (isZero : α → Bool)
    (inf : α) (pa pb : Option (TF_Tensor α)) :
    TFTensorDiv B fdiv isZero inf pa pb = elementwiseOp B (divElem fdiv isZero inf) pa pb := rfl

theorem SIZE_MOD_pos : 0 < SIZE_MOD := by unfold SIZE_MOD; positivity

theorem toSizeT_of_nonneg {d : Int} (h : 0 ≤ d) : toSizeT d = d.toNat % SIZE_MOD := by
  obtain ⟨n, rfl⟩ := Int.eq_ofNat_of_zero_le h
  unfold toSizeT
  rw [← Int.natCast_mod, Int.toNat_natCast, Int.toNat_natCast]

theorem mulSizeT_lt (a b : Nat) : mulSizeT a b < SIZE_MOD := Nat.mod_lt _ SIZE_MOD_pos

theorem sizeFold_mod (ds : List Int) (h : ∀ d ∈ ds, 0 ≤ d) (k : Nat) :
    (ds.foldl (fun acc d => mulSizeT acc (toSizeT d)) k) % SIZE_MOD
      = (k * shapeNumel ds) % SIZE_MOD := by
  induction ds generalizing k with
  | nil => simp [shapeNumel]
  | cons d ds ih =>
      have hd : 0 ≤ d := h d (List.mem_cons_self _ _)
      have hds : ∀ e ∈ ds, 0 ≤ e := fun e he => h e (List.mem_cons_of_mem _ he)
      rw [List.foldl_cons, ih hds, toSizeT_of_nonneg hd]
      have e : shapeNumel (d :: ds) = d.toNat * shapeNumel ds := by simp [shapeNumel]
      rw [e]
      unfold mulSizeT
      have h1 : k * (d.toNat % SIZE_MOD) % SIZE_MOD ≡ k * d.toNat [MOD SIZE_MOD] :=
        (Nat.mod_modEq _ _).trans (Nat.ModEq.mul_left k (Nat.mod_modEq _ _))
      have h2 := Nat.ModEq.mul_right (shapeNumel ds) h1
      rw [mul_assoc k d.toNat] at h2
      exact h2

theorem sizeFold_lt (ds : List Int) (k : Nat) (hk : k < SIZE_MOD) :
    ds.foldl (fun acc d => mulSizeT acc (toSizeT d)) k < SIZE_MOD := by
  induction ds generalizing k with
  | nil => simpa using hk
  | cons d ds ih => rw [List.foldl_cons]; exact ih _ (mulSizeT_lt _ _)

theorem sizeFold_eq (ds : List Int) (h : ∀ d ∈ ds, 0 ≤ d) (hn : shapeNumel ds < SIZE_MOD) :
    ds.foldl (fun acc d => mulSizeT acc (toSizeT d)) 1 = shapeNumel ds := by
  have h1 := sizeFold_mod ds h 1
  have h2 := sizeFold_lt ds 1 (by unfold SIZE_MOD; norm_num)
  rw [Nat.mod_eq_of_lt h2, one_mul, Nat.mod_eq_of_lt hn] at h1
  exact h1

theorem dimLoop_self (ds acc : List Int) (k : Nat) :
    dimLoop (ds.zip ds) (acc, k)
      = some (acc ++ ds, ds.foldl (fun n d => mulSizeT n (toSizeT d)) k) := by
  induction ds generalizing acc k with
  | nil => simp [dimLoop]
  | cons d ds ih =>
      have e : (d :: ds).zip (d :: ds) = (d, d) :: ds.zip ds := rfl
      rw [e, dimLoop, if_neg (by simp), ih]
      simp

theorem dimLoop_ne (xs ys : List Int) (hl : xs.length = ys.length) (hne : xs ≠ ys)
    (st : List Int × Nat) : dimLoop (xs.zip ys) st = none := by
  induction xs generalizing ys st with
  | nil =>
      cases ys with
      | nil => exact absurd rfl hne
      | cons y ys => simp at hl
  | cons x xs ih =>
      cases ys with
      | nil => simp at hl
      | cons y ys =>
          obtain ⟨dims, n⟩ := st
          by_cases hxy : x = y
          · subst hxy
            have hne2 : xs ≠ ys := fun e => hne (by rw [e])
            have hl2 : xs.length = ys.length := by simpa using hl
            have e : (x :: xs).zip (x :: ys) = (x, x) :: xs.zip ys := rfl
            rw [e, dimLoop, if_neg (by simp), ih ys hl2 hne2]
          · have e : (x :: xs).zip (y :: ys) = (x, y) :: xs.zip ys := rfl
            rw [e, dimLoop, if_pos hxy]

theorem elemLoop_zipWith {α : Type} (f : α → α → α) (xs ys : List α)
    (hl : xs.length = ys.length) : elemLoop f xs.length xs ys = some (List.zipWith f xs ys) := by
  induction xs generalizing ys with
  | nil => simp [elemLoop]
  | cons x xs ih =>
      cases ys with
      | nil => simp at hl
      | cons y ys =>
          have hl2 : xs.length = ys.length := by simpa using hl
          simp [elemLoop, ih ys hl2]

theorem elementwiseOp_reject {α : Type} (B : TFBackend) (f : α → α → α) (a b : TF_Tensor α)
    (h : ¬ (a.dtype = .TF_FLOAT ∧ b.dtype = .TF_FLOAT ∧ a.dims = b.dims)) :
    elementwiseOp B f (some a) (some b) = .ok none := by
  unfold elementwiseOp
  by_cases hf : a.dtype ≠ .TF_FLOAT ∨ b.dtype ≠ .TF_FLOAT
  · simp only [if_pos hf]
  · simp only [if_neg hf]
    by_cases hl : a.dims.length ≠ b.dims.length
    · simp only [if_pos hl]
    · simp only [if_neg hl]
      have hne : a.dims ≠ b.dims := by
        intro e
        apply h
        refine ⟨?_, ?_, e⟩
        · by_contra hc; exact hf (Or.inl hc)
        · by_contra hc; exact hf (Or.inr hc)
      rw [dimLoop_ne a.dims b.dims (not_not.mp hl) hne]

theorem elementwiseOp_valid {α : Type} (B : TFBackend) (f : α → α → α) (a b : TF_Tensor α)
    (ha : a.Valid) (hb : b.Valid) (hfa : a.dtype = .TF_FLOAT) (hfb : b.dtype = .TF_FLOAT)
    (hd : a.dims = b.dims) :
    elementwiseOp B f (some a) (some b) =
      if B.malloc (SIZEOF_FLOAT * a.data.length) = false then .ok none
      else if B.TF_NewTensor .TF_FLOAT a.dims (SIZEOF_FLOAT * a.data.length) = false then .ok none
      else .ok (some ⟨.TF_FLOAT, a.dims, List.zipWith f a.data b.data⟩) := by
  obtain ⟨hna, hla⟩ := ha
  obtain ⟨-, hlb⟩ := hb
  obtain ⟨hla1, hla2⟩ := hla hfa
  obtain ⟨hlb1, -⟩ := hlb hfb
  have hlen : a.data.length = b.data.length := by rw [hla1, hlb1, hd]
  have hlt : shapeNumel a.dims < SIZE_MOD := by
    rw [← hla1]; unfold SIZEOF_FLOAT at hla2; omega
  have hfold := sizeFold_eq a.dims hna hlt
  have hbytes : mulSizeT SIZEOF_FLOAT a.data.length = SIZEOF_FLOAT * a.data.length :=
    Nat.mod_eq_of_lt hla2
  have hdiv : ¬ (SIZEOF_FLOAT * a.data.length / SIZEOF_FLOAT < a.data.length) := by
    unfold SIZEOF_FLOAT; omega
  unfold elementwiseOp
  simp only [hfa, hfb, ne_eq, not_true_eq_false, or_self, if_false, ← hd]
  rw [dimLoop_self, hfold, ← hla1]
  simp only [List.nil_append, allocFillWrap, hbytes, if_neg hdiv, elemLoop_zipWith f _ _ hlen]

theorem okBackend_allocOk : okBackend.AllocOk := ⟨fun _ => rfl, fun _ _ _ => rfl⟩

theorem elementwiseOp_ok {α : Type} (B : TFBackend) (hB : B.AllocOk) (f : α → α → α)
    (a b : TF_Tensor α) (ha : a.Valid) (hb : b.Valid) (hc : Compatible a b) :
    elementwiseOp B f (some a) (some b)
      = .ok (some ⟨.TF_FLOAT, a.dims, List.zipWith f a.data b.data⟩) := by
  rw [elementwiseOp_valid B f a b ha hb hc.1 hc.2.1 hc.2.2]
  simp [hB.1, hB.2]

theorem valid_lengths {α : Type} (a b : TF_Tensor α) (ha : a.Valid) (hb : b.Valid)
    (hc : Compatible a b) :
    a.data.length = shapeNumel a.dims ∧ b.data.length = shapeNumel a.dims := by
  refine ⟨(ha.2 hc.1).1, ?_⟩
  rw [hc.2.2]
  exact (hb.2 hc.2.1).1

theorem zipWith_get {α : Type} (f : α → α → α) (xs ys : List α) (i : Nat) (x y : α)
    (hx : xs[i]? = some x) (hy : ys[i]? = some y) : (List.zipWith f xs ys)[i]? = some (f x y) := by
  rw [List.getElem?_zipWith, hx, hy]

/-! ## Elementwise arithmetic of the graph engine -/

/-- C1 as stated fails: two `int32` tensors have the same element type and the same shape, and
all four arithmetic functions return the null sentinel for them. -/
theorem tf_arith_rejects_same_nonfloat_type :
    int32A.dtype = int32B.dtype ∧ int32A.dims = int32B.dims ∧
    TFTensorAdd okBackend (fun x y => x + y) (some int32A) (some int32B) = .ok none ∧
    TFTensorSub okBackend (fun x y => x - y) (some int32A) (some int32B) = .ok none ∧
    TFTensorMul okBackend (fun x y => x * y) (some int32A) (some int32B) = .ok none ∧
    TFTensorDiv okBackend (fun x y => x / y) (fun y => y == 0) 0 (some int32A) (some int32B)
      = .ok none := by
  decide

/-- C1 (amended): for non-null valid graph-engine tensors `a` and `b`, allocation and tensor
construction succeeding, each of `TFTensorAdd`, `TFTensorSub`, `TFTensorMul`, `TFTensorDiv`
returns a non-null result if and only if both operands have element type `TF_FLOAT` and the
same shape (same rank, every dimension equal); every other pair gets the null sentinel. -/
theorem tf_arith_nonnull_iff {α : Type} (B : TFBackend) (hB : B.AllocOk)
    (fadd fsub fmul fdiv : α → α → α) (isZero : α → Bool) (inf : α)
    (a b : TF_Tensor α) (ha : a.Valid) (hb : b.Valid) :
    ((∃ r, TFTensorAdd B fadd (some a) (some b) = .ok (some r)) ↔ Compatible a b) ∧
    ((∃ r, TFTensorSub B fsub (some a) (some b) = .ok (some r)) ↔ Compatible a b) ∧
    ((∃ r, TFTensorMul B fmul (some a) (some b) = .ok (some r)) ↔ Compatible a b) ∧
    ((∃ r, TFTensorDiv B fdiv isZero inf (some a) (some b) = .ok (some r)) ↔ Compatible a b) ∧
    (¬ Compatible a b →
      TFTensorAdd B fadd (some a) (some b) = .ok none ∧
      TFTensorSub B fsub (some a) (some b) = .ok none ∧
      TFTensorMul B fmul (some a) (some b) = .ok none ∧
      TFTensorDiv B fdiv isZero inf (some a) (some b) = .ok none) := by
  have key : ∀ f : α → α → α,
      (∃ r, elementwiseOp B f (some a) (some b) = .ok (some r)) ↔ Compatible a b := by
    intro f
    constructor
    · rintro ⟨r, hr⟩
      by_contra hc
      rw [elementwiseOp_reject B f a b hc] at hr
      cases hr
    · intro hc
      exact ⟨_, elementwiseOp_ok B hB f a b ha hb hc⟩
  refine ⟨?_, ?_, ?_, ?_, ?_⟩
  · simpa only [TFTensorAdd_eq] using key fadd
  · simpa only [TFTensorSub_eq] using key fsub
  · simpa only [TFTensorMul_eq] using key fmul
  · simpa only [TFTensorDiv_eq] using key (divElem fdiv isZero inf)
  · intro hc
    rw [TFTensorAdd_eq, TFTensorSub_eq, TFTensorMul_eq, TFTensorDiv_eq]
    exact ⟨elementwiseOp_reject B _ a b hc, elementwiseOp_reject B _ a b hc,
      elementwiseOp_reject B _ a b hc, elementwiseOp_reject B _ a b hc⟩

theorem floatA_valid : floatA.Valid := by
  refine ⟨by decide, fun _ => ⟨by decide, by decide⟩⟩

theorem floatB_valid : floatB.Valid := by
  refine ⟨by decide, fun _ => ⟨by decide, by decide⟩⟩

/-- C1 (amended), at the float tensors `[6, 10]` and `[3, 5]` of shape `[2]`: the sum exists. -/
theorem tf_arith_nonnull_iff_witness :
    okBackend.AllocOk ∧ floatA.Valid ∧ floatB.Valid ∧
    ∃ r, TFTensorAdd okBackend (fun x y => x + y) (some floatA) (some floatB) = .ok (some r) :=
  ⟨okBackend_allocOk, floatA_valid, floatB_valid,
    (tf_arith_nonnull_iff okBackend okBackend_allocOk (fun x y => x + y) (fun x y => x - y)
      (fun x y => x * y) (fun x y => x / y) (fun y => y == 0) 0 floatA floatB
      floatA_valid floatB_valid).1.mpr ⟨rfl, rfl, rfl⟩⟩

/-- C2: for float tensors `a`, `b` of identical shape (allocation succeeding), the results of
`TFTensorAdd`, `TFTensorSub`, `TFTensorMul` and `TFTensorDiv` have the shape of `a`, and at every
flat index `i` below the element count they hold `a[i] + b[i]`, `a[i] - b[i]`, `a[i] * b[i]`,
and, where `b[i] == 0.0f` is false, `a[i] / b[i]`. -/
theorem tf_arith_elementwise {α : Type} (B : TFBackend) (hB : B.AllocOk)
    (fadd fsub fmul fdiv : α → α → α) (isZero : α → Bool) (inf : α)
    (a b : TF_Tensor α) (ha : a.Valid) (hb : b.Valid) (hc : Compatible a b) :
    ∃ ra rs rm rd : TF_Tensor α,
      TFTensorAdd B fadd (some a) (some b) = .ok (some ra) ∧
      TFTensorSub B fsub (some a) (some b) = .ok (some rs) ∧
      TFTensorMul B fmul (some a) (some b) = .ok (some rm) ∧
      TFTensorDiv B fdiv isZero inf (some a) (some b) = .ok (some rd) ∧
      ra.dims = a.dims ∧ rs.dims = a.dims ∧ rm.dims = a.dims ∧ rd.dims = a.dims ∧
      ∀ i, i < shapeNumel a.dims →
        ∃ x y, a.data[i]? = some x ∧ b.data[i]? = some y ∧
          ra.data[i]? = some (fadd x y) ∧ rs.data[i]? = some (fsub x y) ∧
          rm.data[i]? = some (fmul x y) ∧
          (isZero y = false → rd.data[i]? = some (fdiv x y)) := by
  obtain ⟨hla, hlb⟩ := valid_lengths a b ha hb hc
  refine ⟨⟨.TF_FLOAT, a.dims, List.zipWith fadd a.data b.data⟩,
    ⟨.TF_FLOAT, a.dims, List.zipWith fsub a.data b.data⟩,
    ⟨.TF_FLOAT, a.dims, List.zipWith fmul a.data b.data⟩,
    ⟨.TF_FLOAT, a.dims, List.zipWith (divElem fdiv isZero inf) a.data b.data⟩,
    ?_, ?_, ?_, ?_, rfl, rfl, rfl, rfl, ?_⟩
  · rw [TFTensorAdd_eq]; exact elementwiseOp_ok B hB _ a b ha hb hc
  · rw [TFTensorSub_eq]; exact elementwiseOp_ok B hB _ a b ha hb hc
  · rw [TFTensorMul_eq]; exact elementwiseOp_ok B hB _ a b ha hb hc
  · rw [TFTensorDiv_eq]; exact elementwiseOp_ok B hB _ a b ha hb hc
  · intro i hi
    have hia : i < a.data.length := by rw [hla]; exact hi
    have hib : i < b.data.length := by rw [hlb]; exact hi
    have hx : a.data[i]? = some a.data[i] := List.getElem?_eq_getElem hia
    have hy : b.data[i]? = some b.data[i] := List.getElem?_eq_getElem hib
    refine ⟨a.data[i], b.data[i], hx, hy, zipWith_get _ _ _ _ _ _ hx hy,
      zipWith_get _ _ _ _ _ _ hx hy, zipWith_get _ _ _ _ _ _ hx hy, ?_⟩
    intro hz
    have h := zipWith_get (divElem fdiv isZero inf) _ _ _ _ _ hx hy
    simpa [divElem, hz] using h

/-- C2 at the float tensors `[6, 10]` and `[3, 5]`: the four results exist. -/
theorem tf_arith_elementwise_witness :
    okBackend.AllocOk ∧ floatA.Valid ∧ floatB.Valid ∧ Compatible floatA floatB ∧
    ∃ ra rs rm rd : TF_Tensor Int,
      TFTensorAdd okBackend (fun x y => x + y) (some floatA) (some floatB) = .ok (some ra) ∧
      TFTensorSub okBackend (fun x y => x - y) (some floatA) (some floatB) = .ok (some rs) ∧
      TFTensorMul okBackend (fun x y => x * y) (some floatA) (some floatB) = .ok (some rm) ∧
      TFTensorDiv okBackend (fun x y => x / y) (fun y => y == 0) 0 (some floatA) (some floatB)
        = .ok (some rd) :=
  ⟨okBackend_allocOk, floatA_valid, floatB_valid, ⟨rfl, rfl, rfl⟩,
    (tf_arith_elementwise okBackend okBackend_allocOk (fun x y => x + y) (fun x y => x - y)
      (fun x y => x * y) (fun x y => x / y) (fun y => y == 0) 0 floatA floatB
      floatA_valid floatB_valid ⟨rfl, rfl, rfl⟩).imp fun _ h =>
        h.imp fun _ h => h.imp fun _ h => h.imp fun _ h => ⟨h.1, h.2.1, h.2.2.1, h.2.2.2.1⟩⟩

theorem oneVec_valid : oneVec.Valid := by
  refine ⟨by decide, fun _ => ⟨by decide, by decide⟩⟩

theorem zeroVec_valid : zeroVec.Valid := by
  refine ⟨by decide, fun _ => ⟨by decide, by decide⟩⟩

theorem get_of_get_right {α : Type} (a b : TF_Tensor α) (ha : a.Valid) (hb : b.Valid)
    (hc : Compatible a b) (i : Nat) (y : α) (hy : b.data[i]? = some y) :
    ∃ x, a.data[i]? = some x := by
  obtain ⟨hla, hlb⟩ := valid_lengths a b ha hb hc
  have hi : i < b.data.length := by
    by_contra hn
    rw [List.getElem?_eq_none (not_lt.mp hn)] at hy
    cases hy
  have hia : i < a.data.length := by rw [hla, ← hlb]; exact hi
  exact ⟨a.data[i], List.getElem?_eq_getElem hia⟩

/-- C3: for float tensors `a`, `b` of identical shape (allocation succeeding), `TFTensorDiv(a, b)`
returns a non-null tensor, and at every index `i` where `b[i] == 0.0f` its element is positive
infinity (an infinity with clear sign bit, not a NaN), whatever `a[i]` is. -/
theorem tf_div_by_zero_is_infinity (B : TFBackend) (hB : B.AllocOk) (fdiv : F32 → F32 → F32)
    (a b : TF_Tensor F32) (ha : a.Valid) (hb : b.Valid) (hc : Compatible a b) :
    ∃ r, TFTensorDiv B fdiv F32.isZero F32.INFINITY (some a) (some b) = .ok (some r) ∧
      ∀ (i : Nat) (y : F32), b.data[i]? = some y → y.isZero = true →
        ∃ z, r.data[i]? = some z ∧ z = F32.INFINITY ∧
          z.isInf = true ∧ z.sign = false ∧ z.isNaN = false := by
  refine ⟨⟨.TF_FLOAT, a.dims,
    List.zipWith (divElem fdiv F32.isZero F32.INFINITY) a.data b.data⟩, ?_, ?_⟩
  · rw [TFTensorDiv_eq]; exact elementwiseOp_ok B hB _ a b ha hb hc
  · intro i y hy hz
    obtain ⟨x, hx⟩ := get_of_get_right a b ha hb hc i y hy
    refine ⟨F32.INFINITY, ?_, rfl, by decide, rfl, by decide⟩
    have h := zipWith_get (divElem fdiv F32.isZero F32.INFINITY) _ _ _ _ _ hx hy
    simpa [divElem, hz] using h

/-- C3 at `[1.0] / [+0.0]`: the quotient tensor exists. -/
theorem tf_div_by_zero_is_infinity_witness :
    okBackend.AllocOk ∧ oneVec.Valid ∧ zeroVec.Valid ∧ Compatible oneVec zeroVec ∧
    ∃ r, TFTensorDiv okBackend F32.divUnreached F32.isZero F32.INFINITY (some oneVec)
      (some zeroVec) = .ok (some r) :=
  ⟨okBackend_allocOk, oneVec_valid, zeroVec_valid, ⟨rfl, rfl, rfl⟩,
    (tf_div_by_zero_is_infinity okBackend okBackend_allocOk F32.divUnreached oneVec zeroVec
      oneVec_valid zeroVec_valid ⟨rfl, rfl, rfl⟩).imp fun _ h => h.1⟩

/-- C4 as stated fails: `[-1.0, 1.0, +0.0] / [+0.0, -0.0, +0.0]` is `[+inf, +inf, +inf]`, and
`+infinity` is the IEEE-754 quotient in none of the three places: `-1.0 / +0.0` and `1.0 / -0.0`
are negative infinity and `0.0 / 0.0` is a NaN. -/
theorem tf_div_by_zero_not_ieee :
    TFTensorDiv okBackend F32.divUnreached F32.isZero F32.INFINITY (some numerators)
        (some zeroDivisors)
      = .ok (some ⟨.TF_FLOAT, [3], [F32.INFINITY, F32.INFINITY, F32.INFINITY]⟩) ∧
    F32.isQuotientByZero F32.negOne F32.posZero F32.INFINITY = false ∧
    F32.isQuotientByZero F32.negOne F32.posZero F32.negInfinity = true ∧
    F32.isQuotientByZero F32.one F32.negZero F32.INFINITY = false ∧
    F32.isQuotientByZero F32.one F32.negZero F32.negInfinity = true ∧
    F32.isQuotientByZero F32.posZero F32.posZero F32.INFINITY = false := by
  decide

theorem isQuotientByZero_infinity (x y : F32) :
    F32.isQuotientByZero x y F32.INFINITY = true
      ↔ (x.isNaN = false ∧ x.isZero = false ∧ x.sign = y.sign) := by
  unfold F32.isQuotientByZero
  by_cases hx : (x.isNaN || x.isZero) = true
  · rw [if_pos hx]
    have hn : F32.INFINITY.isNaN = false := by decide
    rw [hn]
    constructor
    · intro h; cases h
    · rintro ⟨h1, h2, -⟩
      rw [h1, h2] at hx
      cases hx
  · rw [if_neg hx]
    have hx1 : x.isNaN = false := by
      cases h : x.isNaN
      · rfl
      · rw [h] at hx; exact absurd rfl hx
    have hx2 : x.isZero = false := by
      cases h : x.isZero
      · rfl
      · rw [h, Bool.or_true] at hx; exact absurd rfl hx
    have e : (F32.INFINITY == (⟨xor x.sign y.sign, 255, 0⟩ : F32)) = true
        ↔ x.sign = y.sign := by
      rw [beq_iff_eq]
      cases x.sign <;> cases y.sign <;> simp [F32.INFINITY]
    rw [e]
    exact ⟨fun h => ⟨hx1, hx2, h⟩, fun h => h.2.2⟩

/-- C4 (amended): for float tensors `a`, `b` of identical shape (allocation succeeding) and every
index `i` where `b[i]` is a zero, the element `TFTensorDiv(a, b)[i]` is positive infinity; it is
the IEEE-754 quotient `a[i] / b[i]` exactly when `a[i]` is neither a NaN nor a zero and has the
sign of `b[i]`. -/
theorem tf_div_by_zero_ieee_iff (B : TFBackend) (hB : B.AllocOk) (fdiv : F32 → F32 → F32)
    (a b : TF_Tensor F32) (ha : a.Valid) (hb : b.Valid) (hc : Compatible a b) :
    ∃ r, TFTensorDiv B fdiv F32.isZero F32.INFINITY (some a) (some b) = .ok (some r) ∧
      ∀ (i : Nat) (x y : F32), a.data[i]? = some x → b.data[i]? = some y → y.isZero = true →
        ∃ z, r.data[i]? = some z ∧ z = F32.INFINITY ∧
          (F32.isQuotientByZero x y z = true
            ↔ (x.isNaN = false ∧ x.isZero = false ∧ x.sign = y.sign)) := by
  refine ⟨⟨.TF_FLOAT, a.dims,
    List.zipWith (divElem fdiv F32.isZero F32.INFINITY) a.data b.data⟩, ?_, ?_⟩
  · rw [TFTensorDiv_eq]; exact elementwiseOp_ok B hB _ a b ha hb hc
  · intro i x y hx hy hz
    refine ⟨F32.INFINITY, ?_, rfl, isQuotientByZero_infinity x y⟩
    have h := zipWith_get (divElem fdiv F32.isZero F32.INFINITY) _ _ _ _ _ hx hy
    simpa [divElem, hz] using h

/-- C4 (amended) at `[1.0] / [+0.0]`: the quotient tensor exists. -/
theorem tf_div_by_zero_ieee_iff_witness :
    okBackend.AllocOk ∧ oneVec.Valid ∧ zeroVec.Valid ∧ Compatible oneVec zeroVec ∧
    ∃ r, TFTensorDiv okBackend F32.divUnreached F32.isZero F32.INFINITY (some oneVec)
      (some zeroVec) = .ok (some r) :=
  ⟨okBackend_allocOk, oneVec_valid, zeroVec_valid, ⟨rfl, rfl, rfl⟩,
    (tf_div_by_zero_ieee_iff okBackend okBackend_allocOk F32.divUnreached oneVec zeroVec
      oneVec_valid zeroVec_valid ⟨rfl, rfl, rfl⟩).imp fun _ h => h.1⟩

theorem lookup_filter_self (heap : Heap) (h : Nat) :
    (heap.filter (fun e => e.1 ≠ h)).lookup h = none := by
  induction heap with
  | nil => rfl
  | cons e heap ih =>
      obtain ⟨q, o⟩ := e
      by_cases hq : q = h
      · rw [List.filter_cons_of_neg (by simpa using hq)]
        exact ih
      · have hb : (h == q) = false := by simpa using fun e => hq e.symm
        rw [List.filter_cons_of_pos (by simpa using hq), List.lookup_cons, hb]
        exact ih

theorem lookup_filter_other (heap : Heap) (h q : Nat) (hq : q ≠ h) :
    (heap.filter (fun e => e.1 ≠ h)).lookup q = heap.lookup q := by
  induction heap with
  | nil => rfl
  | cons e heap ih =>
      obtain ⟨r, o⟩ := e
      by_cases hr : r = h
      · have hb : (q == r) = false := by simpa [hr] using hq
        rw [List.filter_cons_of_neg (by simpa using hr), List.lookup_cons, hb]
        exact ih
      · rw [List.filter_cons_of_pos (by simpa using hr), List.lookup_cons, List.lookup_cons, ih]

theorem deref_release_self (w : World) (h : Nat) : (w.release h).deref h = none :=
  lookup_filter_self w.heap h

theorem deref_release_other (w : World) (h q : Nat) (hq : q ≠ h) :
    (w.release h).deref q = w.deref q :=
  lookup_filter_other w.heap h q hq

theorem deref_store_self (w : World) (p : Nat) (o : Obj) : (w.store p o).deref p = some o := by
  simp [World.store, World.deref, List.lookup]

theorem free_ok_release (w w1 : World) (h : Nat) (hn : h ≠ 0)
    (hfree : Mem.FreeTensor h w = .ok w1 ∨ Mem.FreeOptimizer h w = .ok w1 ∨
      Mem.FreeTFTensor h w = .ok w1 ∨ Mem.FreeModel h w = .ok w1) :
    w1 = w.release h := by
  unfold Mem.FreeTensor Mem.FreeOptimizer Mem.FreeTFTensor Mem.FreeModel at hfree
  simp only [if_neg hn] at hfree
  rcases hfree with h1 | h1 | h1 | h1 <;>
    · cases hd : w.deref h with
      | none => rw [hd] at h1; cases h1
      | some o =>
          rw [hd] at h1
          cases o <;> first | (injection h1 with h2; exact h2.symm) | cases h1

theorem dangling_undefined (T : TorchBackend) (w : World) (h : Nat) (hn : h ≠ 0)
    (hd : w.deref h = none) :
    Mem.TensorRows h w = .undefined ∧ Mem.OptimizerStep T h w = .undefined ∧
    Mem.OptimizerZeroGrad T h w = .undefined ∧ Mem.FreeTensor h w = .undefined ∧
    Mem.FreeOptimizer h w = .undefined ∧ Mem.FreeTFTensor h w = .undefined ∧
    Mem.FreeModel h w = .undefined := by
  simp [Mem.TensorRows, Mem.OptimizerStep, Mem.OptimizerZeroGrad, Mem.FreeTensor,
    Mem.FreeOptimizer, Mem.FreeTFTensor, Mem.FreeModel, hn, hd]

/-- C6 as stated fails: after `CreateTensorOnes(2, 3)` returned the handle `1` and `FreeTensor`
released it, `TensorRows` of the handle is not the sentinel `-1` but an undefined read of the
released object; and once a later creation has taken the address, the released handle reads the
new tensor (`5` rows) and `FreeTensor` of it destroys that live object. -/
theorem released_handle_is_used :
    (Mem.CreateTensorOnes exTorch 2 3 emptyWorld).1 = 1 ∧
    Mem.FreeTensor 1 heldWorld = .ok freedWorld ∧
    Mem.TensorRows 1 freedWorld = .undefined ∧
    Mem.TensorRows 1 freedWorld ≠ .ok (-1) ∧
    (Mem.CreateTensorOnes exTorch 5 4 freedWorld).1 = 1 ∧
    Mem.TensorRows 1 reusedWorld = .ok 5 ∧
    (∃ w, Mem.FreeTensor 1 reusedWorld = .ok w ∧ w.deref 1 = none) := by
  refine ⟨by decide, by decide, by decide, by decide, by decide, by decide, ?_⟩
  exact ⟨reusedWorld.release 1, by decide, by decide⟩

/-- C6 (amended): when a matching free operation (`FreeTensor`, `FreeOptimizer`, `FreeTFTensor`,
`FreeModel`) has released a non-null handle `h`, the object of `h` is gone and no other handle's
object has changed; the layer keeps no record of it, so a later boundary operation given `h`
(while nothing else occupies the address) is not rejected with a sentinel: it uses the released
pointer, which is undefined behaviour. Only the null handle fails cleanly. -/
theorem released_handle_unchecked (T : TorchBackend) (w w1 : World) (h : Nat) (hn : h ≠ 0)
    (hfree : Mem.FreeTensor h w = .ok w1 ∨ Mem.FreeOptimizer h w = .ok w1 ∨
      Mem.FreeTFTensor h w = .ok w1 ∨ Mem.FreeModel h w = .ok w1) :
    w1.deref h = none ∧ (∀ q, q ≠ h → w1.deref q = w.deref q) ∧
    Mem.TensorRows h w1 = .undefined ∧ Mem.OptimizerStep T h w1 = .undefined ∧
    Mem.OptimizerZeroGrad T h w1 = .undefined ∧ Mem.FreeTensor h w1 = .undefined ∧
    Mem.FreeOptimizer h w1 = .undefined ∧ Mem.FreeTFTensor h w1 = .undefined ∧
    Mem.FreeModel h w1 = .undefined ∧
    Mem.TensorRows 0 w1 = .ok (-1) ∧ Mem.OptimizerStep T 0 w1 = .ok w1 ∧
    Mem.OptimizerZeroGrad T 0 w1 = .ok w1 ∧ Mem.FreeTensor 0 w1 = .ok w1 ∧
    Mem.FreeOptimizer 0 w1 = .ok w1 ∧ Mem.FreeTFTensor 0 w1 = .ok w1 ∧
    Mem.FreeModel 0 w1 = .ok w1 := by
  have e := free_ok_release w w1 h hn hfree
  subst e
  have hd := deref_release_self w h
  obtain ⟨h1, h2, h3, h4, h5, h6, h7⟩ := dangling_undefined T (w.release h) h hn hd
  exact ⟨hd, fun q hq => deref_release_other w h q hq, h1, h2, h3, h4, h5, h6, h7,
    rfl, rfl, rfl, rfl, rfl, rfl, rfl⟩

/-- C6 (amended) at the handle `1` of `CreateTensorOnes(2, 3)` released by `FreeTensor`. -/
theorem released_handle_unchecked_witness :
    (1 : Nat) ≠ 0 ∧ Mem.FreeTensor 1 heldWorld = .ok freedWorld ∧
    Mem.OptimizerStep exTorch 1 freedWorld = .undefined :=
  ⟨by decide, by decide,
    (released_handle_unchecked exTorch heldWorld freedWorld 1 (by decide)
      (Or.inl (by decide))).2.2.2.1⟩

/-- C7 as stated fails: with one live object of each kind, the first call of each free operation
releases its object, and the second call on the same handle is not rejected (it would return
with the state unchanged): it deletes through the dangling pointer, which is undefined. -/
theorem double_free_not_rejected :
    Mem.FreeTensor 1 zooWorld = .ok (zooWorld.release 1) ∧
    Mem.FreeTensor 1 (zooWorld.release 1) = .undefined ∧
    Mem.FreeTensor 1 (zooWorld.release 1) ≠ .ok (zooWorld.release 1) ∧
    Mem.FreeOptimizer 2 zooWorld = .ok (zooWorld.release 2) ∧
    Mem.FreeOptimizer 2 (zooWorld.release 2) = .undefined ∧
    Mem.FreeTFTensor 3 zooWorld = .ok (zooWorld.release 3) ∧
    Mem.FreeTFTensor 3 (zooWorld.release 3) = .undefined ∧
    Mem.FreeModel 4 zooWorld = .ok (zooWorld.release 4) ∧
    Mem.FreeModel 4 (zooWorld.release 4) = .undefined := by
  decide

/-- C7 (amended): for every live non-null handle `h`, the first call of its free operation
succeeds and releases the object; the free operations test the handle against null only, so a
second call on `h` is not rejected as InvalidHandle: it deletes through the dangling pointer
(undefined behaviour). The null handle is the one handle they turn down, releasing nothing. -/
theorem double_free_undefined (w : World) (h : Nat) (hn : h ≠ 0) :
    (∀ t, w.deref h = some (.tensor t) →
      Mem.FreeTensor h w = .ok (w.release h) ∧ (w.release h).deref h = none ∧
      Mem.FreeTensor h (w.release h) = .undefined) ∧
    (∀ o, w.deref h = some (.optimizer o) →
      Mem.FreeOptimizer h w = .ok (w.release h) ∧ (w.release h).deref h = none ∧
      Mem.FreeOptimizer h (w.release h) = .undefined) ∧
    (∀ t, w.deref h = some (.tfTensor t) →
      Mem.FreeTFTensor h w = .ok (w.release h) ∧ (w.release h).deref h = none ∧
      Mem.FreeTFTensor h (w.release h) = .undefined) ∧
    (∀ m, w.deref h = some (.model m) →
      Mem.FreeModel h w = .ok (w.release h) ∧ (w.release h).deref h = none ∧
      Mem.FreeModel h (w.release h) = .undefined) ∧
    Mem.FreeTensor 0 w = .ok w ∧ Mem.FreeOptimizer 0 w = .ok w ∧
    Mem.FreeTFTensor 0 w = .ok w ∧ Mem.FreeModel 0 w = .ok w := by
  have hd := deref_release_self w h
  refine ⟨?_, ?_, ?_, ?_, rfl, rfl, rfl, rfl⟩
  · intro t ht
    exact ⟨by simp [Mem.FreeTensor, hn, ht], hd, by simp [Mem.FreeTensor, hn, hd]⟩
  · intro o ho
    exact ⟨by simp [Mem.FreeOptimizer, hn, ho], hd, by simp [Mem.FreeOptimizer, hn, hd]⟩
  · intro t ht
    exact ⟨by simp [Mem.FreeTFTensor, hn, ht], hd, by simp [Mem.FreeTFTensor, hn, hd]⟩
  · intro m hm
    exact ⟨by simp [Mem.FreeModel, hn, hm], hd, by simp [Mem.FreeModel, hn, hd]⟩

/-- C7 (amended) at the optimizer handle `2` of the sample state. -/
theorem double_free_undefined_witness :
    (2 : Nat) ≠ 0 ∧ zooWorld.deref 2 = some (.optimizer ⟨5⟩) ∧
    Mem.FreeOptimizer 2 zooWorld = .ok (zooWorld.release 2) ∧
    Mem.FreeOptimizer 2 (zooWorld.release 2) = .undefined :=
  have h := (double_free_undefined zooWorld 2 (by decide)).2.1 ⟨5⟩
    (by decide)
  ⟨by decide, by decide, h.1, h.2.2⟩

/-- C8 as stated fails: the handle `1` returned by `CreateTensorOnes(2, 3)` is not rejected by
`OptimizerStep`, `OptimizerZeroGrad` or `FreeOptimizer` (a rejection would return with the state
unchanged): each of them uses the tensor as an optimizer, which is undefined. -/
theorem tensor_handle_not_kind_checked :
    (Mem.CreateTensorOnes exTorch 2 3 emptyWorld).1 = 1 ∧
    heldWorld.deref 1 = some (.tensor ⟨[2, 3], List.replicate 6 F32.one⟩) ∧
    Mem.OptimizerStep exTorch 1 heldWorld = .undefined ∧
    Mem.OptimizerStep exTorch 1 heldWorld ≠ .ok heldWorld ∧
    Mem.OptimizerZeroGrad exTorch 1 heldWorld = .undefined ∧
    Mem.FreeOptimizer 1 heldWorld = .undefined := by
  decide

/-- C8 (amended): the optimizer operations perform no kind check; they reject the null handle
only. Given a non-null handle to a live tensor, `OptimizerStep`, `OptimizerZeroGrad` and
`FreeOptimizer` cast it to an optimizer and use it, which is undefined behaviour, not an
InvalidHandle failure. -/
theorem tensor_as_optimizer_undefined (T : TorchBackend) (w : World) (h : Nat) (t : ATensor)
    (hn : h ≠ 0) (ht : w.deref h = some (.tensor t)) :
    Mem.OptimizerStep T h w = .undefined ∧ Mem.OptimizerZeroGrad T h w = .undefined ∧
    Mem.FreeOptimizer h w = .undefined ∧
    Mem.OptimizerStep T 0 w = .ok w ∧ Mem.OptimizerZeroGrad T 0 w = .ok w ∧
    Mem.FreeOptimizer 0 w = .ok w := by
  refine ⟨?_, ?_, ?_, rfl, rfl, rfl⟩
  · simp [Mem.OptimizerStep, hn, ht]
  · simp [Mem.OptimizerZeroGrad, hn, ht]
  · simp [Mem.FreeOptimizer, hn, ht]

/-- C8 (amended) at the tensor handle `1` of the sample state. -/
theorem tensor_as_optimizer_undefined_witness :
    (1 : Nat) ≠ 0 ∧ zooWorld.deref 1 = some (.tensor ⟨[2, 3], List.replicate 6 F32.one⟩) ∧
    Mem.OptimizerStep exTorch 1 zooWorld = .undefined :=
  ⟨by decide, by decide,
    (tensor_as_optimizer_undefined exTorch zooWorld 1 ⟨[2, 3], List.replicate 6 F32.one⟩
      (by decide) (by decide)).1⟩

/-! ## Creation operations -/

/-- C9: the code differs from the claim at `CreateTFTensor(values, {0, 3}, 2)`: with a non-null
buffer and the allocation succeeding it returns a non-null (empty) float tensor of shape
`[0, 3]`, although a dimension is not positive; `CreateMatrixTensor(values, 0, 3)`, the sibling
entry point, returns the null sentinel and leaves the state alone. -/
theorem createTFTensor_accepts_zero_dimension :
    CreateTFTensor okBackend (some ([1, 2, 3] : List Int)) (some [0, 3]) 2
      = .ok (some ⟨.TF_FLOAT, [0, 3], []⟩) ∧
    Mem.CreateMatrixTensor exTorch (some [F32.one, F32.one, F32.one]) 0 3 emptyWorld
      = .ok (0, emptyWorld) := by
  decide

theorem firstFree_fresh (heap : Heap) (p : Nat) (h : firstFree heap = some p) :
    p ≠ 0 ∧ heap.lookup p = none := by
  unfold firstFree at h
  constructor
  · have hm := List.mem_of_find?_eq_some h
    obtain ⟨k, -, rfl⟩ := List.mem_map.mp hm
    exact Nat.succ_ne_zero k
  · have hp := List.find?_some h
    cases hl : heap.lookup p with
    | none => rfl
    | some o => rw [hl] at hp; cases hp

theorem exTorch_freshAlloc : exTorch.FreshAlloc := fun heap p h => firstFree_fresh heap p h

/-- C10: for all integers `rows` and `cols`, each of `CreateTensorOnes`, `CreateTensorZeros`,
`CreateTensorRand`, `CreateTensorRandn` returns the null handle when `rows <= 0` or `cols <= 0`,
leaving the state, its record of backend calls included, as it was; with both positive, the
libtorch factory not throwing and `new` succeeding at address `p`, it returns the non-null
handle `p`, which then points to the tensor the factory made. -/
theorem create_factories_guard (T : TorchBackend) (rows cols : Int) (w : World) :
    ((rows ≤ 0 ∨ cols ≤ 0) →
      Mem.CreateTensorOnes T rows cols w = (0, w) ∧
      Mem.CreateTensorZeros T rows cols w = (0, w) ∧
      Mem.CreateTensorRand T rows cols w = (0, w) ∧
      Mem.CreateTensorRandn T rows cols w = (0, w)) ∧
    ((0 < rows ∧ 0 < cols) → T.FreshAlloc → ∀ p, T.alloc w.heap = some p →
      p ≠ 0 ∧
      (∀ t, T.ones rows cols = some t →
        (Mem.CreateTensorOnes T rows cols w).1 = p ∧
        (Mem.CreateTensorOnes T rows cols w).2.deref p = some (.tensor t)) ∧
      (∀ t, T.zeros rows cols = some t →
        (Mem.CreateTensorZeros T rows cols w).1 = p ∧
        (Mem.CreateTensorZeros T rows cols w).2.deref p = some (.tensor t)) ∧
      (∀ t, T.rand rows cols = some t →
        (Mem.CreateTensorRand T rows cols w).1 = p ∧
        (Mem.CreateTensorRand T rows cols w).2.deref p = some (.tensor t)) ∧
      (∀ t, T.randn rows cols = some t →
        (Mem.CreateTensorRandn T rows cols w).1 = p ∧
        (Mem.CreateTensorRandn T rows cols w).2.deref p = some (.tensor t))) := by
  constructor
  · intro hg
    simp only [Mem.CreateTensorOnes, Mem.CreateTensorZeros, Mem.CreateTensorRand,
      Mem.CreateTensorRandn, if_pos hg, and_self]
  · rintro ⟨hr, hc⟩ hfresh p hp
    have hg : ¬ (rows ≤ 0 ∨ cols ≤ 0) := by omega
    refine ⟨(hfresh w.heap p hp).1, ?_, ?_, ?_, ?_⟩
    · intro t ht
      simp only [Mem.CreateTensorOnes, if_neg hg, ht, hp, deref_store_self, and_self]
    · intro t ht
      simp only [Mem.CreateTensorZeros, if_neg hg, ht, hp, deref_store_self, and_self]
    · intro t ht
      simp only [Mem.CreateTensorRand, if_neg hg, ht, hp, deref_store_self, and_self]
    · intro t ht
      simp only [Mem.CreateTensorRandn, if_neg hg, ht, hp, deref_store_self, and_self]

/-- C10 at `rows = 2`, `cols = 3` on the empty state (handle `1`), and at `rows = 0`. -/
theorem create_factories_guard_witness :
    ((0 : Int) ≤ 0 ∨ (3 : Int) ≤ 0) ∧ ((0 : Int) < 2 ∧ (0 : Int) < 3) ∧ exTorch.FreshAlloc ∧
    exTorch.alloc emptyWorld.heap = some 1 ∧
    Mem.CreateTensorOnes exTorch 0 3 emptyWorld = (0, emptyWorld) ∧
    (Mem.CreateTensorOnes exTorch 2 3 emptyWorld).1 = 1 :=
  ⟨by decide, by decide, exTorch_freshAlloc, by decide,
    ((create_factories_guard exTorch 0 3 emptyWorld).1 (by decide)).1,
    ((create_factories_guard exTorch 2 3 emptyWorld).2 (by decide) exTorch_freshAlloc 1
      (by decide)).2.1 _ rfl |>.1⟩

/-! ## Rows and columns -/

theorem toInt32_of_fits (x : Int) (h : FitsInt x) : toInt32 x = x := by
  unfold FitsInt at h
  unfold toInt32
  omega

theorem rows_cols_of_rank_two (t : ATensor) (n m : Int) (rest : List Int)
    (h : t.sizes = n :: m :: rest) :
    (FitsInt n → TensorRows (some t) = n) ∧ (FitsInt m → TensorCols (some t) = m) := by
  refine ⟨fun hn => ?_, fun hm => ?_⟩
  · simp [TensorRows, h, toInt32_of_fits n hn]
  · simp [TensorCols, h, toInt32_of_fits m hm]

/-- C11 as stated fails: a tensor of sizes `[2 ^ 31, 0]` reports `-2 ^ 31` rows, not `size(0)`,
and a tensor of sizes `[0, 2 ^ 32 + 3]` reports `3` columns, not `size(1)`: the `int64_t` size is
narrowed to the `int` the functions return. -/
theorem tensor_rows_cols_narrowed :
    TensorRows (some tallTensor) = -2 ^ 31 ∧ tallTensor.sizes = [2 ^ 31, 0] ∧
    TensorCols (some wideTensor) = 3 ∧ wideTensor.sizes = [0, 2 ^ 32 + 3] := by
  decide

/-- C11 (amended): for every non-null tensor, `TensorRows` and `TensorCols` follow the
rank-adaptive convention whenever the size reported is a value of type `int`: rank 0 gives
`1` and `1`; rank 1 gives `size(0)` and `1`; rank at least 2 gives `size(0)` and `size(1)`,
whatever further dimensions follow. -/
theorem tensor_rows_cols_convention (t : ATensor) :
    (t.sizes = [] → TensorRows (some t) = 1 ∧ TensorCols (some t) = 1) ∧
    (∀ n, t.sizes = [n] → TensorCols (some t) = 1 ∧ (FitsInt n → TensorRows (some t) = n)) ∧
    (∀ n m rest, t.sizes = n :: m :: rest →
      (FitsInt n → TensorRows (some t) = n) ∧ (FitsInt m → TensorCols (some t) = m)) := by
  refine ⟨?_, ?_, ?_⟩
  · intro h
    simp [TensorRows, TensorCols, h]
  · intro n h
    refine ⟨by simp [TensorCols, h], fun hn => ?_⟩
    simp [TensorRows, h, toInt32_of_fits n hn]
  · intro n m rest h
    exact rows_cols_of_rank_two t n m rest h

/-- C11 (amended) at a tensor of sizes `[2, 3, 4]`: two rows, three columns. -/
theorem tensor_rows_cols_convention_witness :
    FitsInt 2 ∧ FitsInt 3 ∧
    TensorRows (some ⟨[2, 3, 4], []⟩) = 2 ∧ TensorCols (some ⟨[2, 3, 4], []⟩) = 3 :=
  have h := (tensor_rows_cols_convention ⟨[2, 3, 4], []⟩).2.2 2 3 [4] rfl
  ⟨by decide, by decide, h.1 (by decide), h.2 (by decide)⟩

/-- C12: for positive `int` values `r` and `c` (libtorch building the `r × c` tensor and `new`
succeeding), the handle `CreateTensorOnes(r, c)` returns is non-null and `TensorRows` of it is
`r`, `TensorCols` of it is `c`; `CreateTensorOnes(0, c)` returns the null handle for every `c`. -/
theorem create_ones_rows_cols (T : TorchBackend) (hfresh : T.FreshAlloc) (w : World) (r c : Int)
    (hr : 0 < r) (hc : 0 < c) (hri : r < 2 ^ 31) (hci : c < 2 ^ 31)
    (t : ATensor) (ht : T.ones r c = some t) (hs : t.sizes = [r, c])
    (p : Nat) (hp : T.alloc w.heap = some p) :
    (Mem.CreateTensorOnes T r c w).1 ≠ 0 ∧
    Mem.TensorRows (Mem.CreateTensorOnes T r c w).1 (Mem.CreateTensorOnes T r c w).2 = .ok r ∧
    Mem.TensorCols (Mem.CreateTensorOnes T r c w).1 (Mem.CreateTensorOnes T r c w).2 = .ok c ∧
    ∀ c2, Mem.CreateTensorOnes T 0 c2 w = (0, w) := by
  have hg : ¬ (r ≤ 0 ∨ c ≤ 0) := by omega
  have hp0 : p ≠ 0 := (hfresh w.heap p hp).1
  have hfr : FitsInt r := ⟨by omega, hri⟩
  have hfc : FitsInt c := ⟨by omega, hci⟩
  have hcr : Mem.CreateTensorOnes T r c w = (p, (w.call "torch::ones").store p (.tensor t)) := by
    simp only [Mem.CreateTensorOnes, if_neg hg, ht, hp]
  have hrc := (rows_cols_of_rank_two t r c [] hs)
  rw [hcr]
  refine ⟨hp0, ?_, ?_, ?_⟩
  · simp only [Mem.TensorRows, if_neg hp0, deref_store_self]
    rw [hrc.1 hfr]
  · simp only [Mem.TensorCols, if_neg hp0, deref_store_self]
    rw [hrc.2 hfc]
  · intro c2
    simp [Mem.CreateTensorOnes]

/-- C12 at `r = 2`, `c = 3` on the empty state, and at `CreateTensorOnes(0, 3)`. -/
theorem create_ones_rows_cols_witness :
    exTorch.FreshAlloc ∧ (0 : Int) < 2 ∧ (0 : Int) < 3 ∧
    Mem.TensorRows (Mem.CreateTensorOnes exTorch 2 3 emptyWorld).1
      (Mem.CreateTensorOnes exTorch 2 3 emptyWorld).2 = .ok 2 ∧
    Mem.TensorCols (Mem.CreateTensorOnes exTorch 2 3 emptyWorld).1
      (Mem.CreateTensorOnes exTorch 2 3 emptyWorld).2 = .ok 3 ∧
    Mem.CreateTensorOnes exTorch 0 3 emptyWorld = (0, emptyWorld) :=
  have h := create_ones_rows_cols exTorch exTorch_freshAlloc emptyWorld 2 3 (by decide)
    (by decide) (by decide) (by decide) _ rfl rfl 1 (by decide)
  ⟨exTorch_freshAlloc, by decide, by decide, h.2.1, h.2.2.1, h.2.2.2 3⟩

/-! ## The tensor invariant -/

theorem zipWith_valid {α : Type} (f : α → α → α) (a b : TF_Tensor α) (ha : a.Valid)
    (hb : b.Valid) (hc : Compatible a b) :
    (⟨.TF_FLOAT, a.dims, List.zipWith f a.data b.data⟩ : TF_Tensor α).Valid := by
  obtain ⟨hla, hlb⟩ := valid_lengths a b ha hb hc
  have hl : (List.zipWith f a.data b.data).length = a.data.length := by
    rw [List.length_zipWith, hla, hlb]; exact min_self _
  refine ⟨ha.1, fun _ => ⟨?_, ?_⟩⟩
  · show (List.zipWith f a.data b.data).length = _
    rw [hl]; exact hla
  · show SIZEOF_FLOAT * (List.zipWith f a.data b.data).length < _
    rw [hl]; exact (ha.2 hc.1).2

theorem elementwiseOp_some {α : Type} (B : TFBackend) (f : α → α → α) (a b r : TF_Tensor α)
    (ha : a.Valid) (hb : b.Valid) (h : elementwiseOp B f (some a) (some b) = .ok (some r)) :
    Compatible a b ∧ r = ⟨.TF_FLOAT, a.dims, List.zipWith f a.data b.data⟩ := by
  have hc : Compatible a b := by
    by_contra hc
    rw [elementwiseOp_reject B f a b hc] at h
    cases h
  refine ⟨hc, ?_⟩
  rw [elementwiseOp_valid B f a b ha hb hc.1 hc.2.1 hc.2.2] at h
  split at h
  · cases h
  · split at h
    · cases h
    · injection h with h1
      injection h1 with h2
      exact h2.symm

theorem createTFTensor_some {α : Type} (B : TFBackend)
    (values : Option (List α)) (dims : Option (List Int)) (num_dims : Int) (r : TF_Tensor α)
    (h : CreateTFTensor B values dims num_dims = .ok (some r)) :
    ∃ vs ds, values = some vs ∧ dims = some ds ∧ 0 < num_dims ∧ num_dims.toNat ≤ ds.length ∧
      mulSizeT SIZEOF_FLOAT
          ((ds.take num_dims.toNat).foldl (fun acc d => mulSizeT acc (toSizeT d)) 1)
        ≤ vs.length * SIZEOF_FLOAT ∧
      r = ⟨.TF_FLOAT, ds.take num_dims.toNat,
        vs.take (mulSizeT SIZEOF_FLOAT
          ((ds.take num_dims.toNat).foldl (fun acc d => mulSizeT acc (toSizeT d)) 1)
            / SIZEOF_FLOAT)⟩ := by
  unfold CreateTFTensor at h
  cases values with
  | none => cases h
  | some vs =>
    cases dims with
    | none => cases h
    | some ds =>
      simp only at h
      split at h
      · cases h
      · rename_i hnd
        split at h
        · cases h
        · rename_i hlen
          split at h
          · cases h
          · split at h
            · cases h
            · rename_i hread
              split at h
              · cases h
              · injection h with h1
                injection h1 with h2
                exact ⟨vs, ds, rfl, rfl, by omega, by omega, by omega, h2.symm⟩

theorem valid_invariant {α : Type} (r : TF_Tensor α) (hr : r.Valid) (hf : r.dtype = .TF_FLOAT) :
    r.data.length = shapeNumel r.dims ∧
    r.dims.foldl (fun acc d => mulSizeT acc (toSizeT d)) 1 = shapeNumel r.dims := by
  obtain ⟨h1, h2⟩ := hr.2 hf
  refine ⟨h1, sizeFold_eq r.dims hr.1 ?_⟩
  rw [← h1]; unfold SIZEOF_FLOAT at h2; omega

/-- Where `CreateTFTensor` does establish the invariant: a tensor it returns whose dimensions are
not negative and whose byte size `sizeof(float) * product(dims)` fits `size_t` is a float tensor
of `num_dims` dimensions whose buffer holds exactly `product(dims)` elements, whatever the
backend. -/
theorem createTFTensor_invariant_of_fits {α : Type} (B : TFBackend)
    (values : Option (List α)) (dims : Option (List Int)) (num_dims : Int) (r : TF_Tensor α)
    (h : CreateTFTensor B values dims num_dims = .ok (some r))
    (hnn : ∀ d ∈ r.dims, 0 ≤ d) (hfit : SIZEOF_FLOAT * shapeNumel r.dims < SIZE_MOD) :
    r.Valid ∧ r.dtype = .TF_FLOAT ∧ (r.dims.length : Int) = num_dims ∧
    r.data.length = shapeNumel r.dims ∧
    r.dims.foldl (fun acc d => mulSizeT acc (toSizeT d)) 1 = shapeNumel r.dims := by
  obtain ⟨vs, ds, -, -, hpos, hlen, hread, rfl⟩ := createTFTensor_some B values dims num_dims r h
  have hnn : ∀ d ∈ ds.take num_dims.toNat, 0 ≤ d := hnn
  have hfit : SIZEOF_FLOAT * shapeNumel (ds.take num_dims.toNat) < SIZE_MOD := hfit
  have hnum : shapeNumel (ds.take num_dims.toNat) < SIZE_MOD := by
    unfold SIZEOF_FLOAT at hfit; omega
  have hfold := sizeFold_eq _ hnn hnum
  have hmul : mulSizeT SIZEOF_FLOAT (shapeNumel (ds.take num_dims.toNat))
      = SIZEOF_FLOAT * shapeNumel (ds.take num_dims.toNat) := Nat.mod_eq_of_lt hfit
  have hdiv : SIZEOF_FLOAT * shapeNumel (ds.take num_dims.toNat) / SIZEOF_FLOAT
      = shapeNumel (ds.take num_dims.toNat) := by
    unfold SIZEOF_FLOAT; omega
  rw [hfold, hmul] at hread
  have hvs : shapeNumel (ds.take num_dims.toNat) ≤ vs.length := by
    unfold SIZEOF_FLOAT at hread; omega
  have hl : (vs.take (mulSizeT SIZEOF_FLOAT
      ((ds.take num_dims.toNat).foldl (fun acc d => mulSizeT acc (toSizeT d)) 1)
        / SIZEOF_FLOAT)).length = shapeNumel (ds.take num_dims.toNat) := by
    rw [hfold, hmul, hdiv, List.length_take]; exact min_eq_left hvs
  have hv : (⟨.TF_FLOAT, ds.take num_dims.toNat,
      vs.take (mulSizeT SIZEOF_FLOAT
        ((ds.take num_dims.toNat).foldl (fun acc d => mulSizeT acc (toSizeT d)) 1)
          / SIZEOF_FLOAT)⟩ : TF_Tensor α).Valid :=
    ⟨hnn, fun _ => ⟨hl, by show SIZEOF_FLOAT * (List.take _ vs).length < _; rw [hl]; exact hfit⟩⟩
  refine ⟨hv, rfl, ?_, valid_invariant _ hv rfl⟩
  show ((ds.take num_dims.toNat).length : Int) = num_dims
  rw [List.length_take, min_eq_left hlen]
  omega

/-- The four arithmetic functions keep the invariant: a tensor one of them returns on operands
that satisfy it is a float tensor of the operands' rank whose buffer holds exactly
`product(shape)` elements, the count computed in `size_t` being that product. -/
theorem tf_arith_keeps_invariant {α : Type} (B : TFBackend)
    (fadd fsub fmul fdiv : α → α → α) (isZero : α → Bool) (inf : α) (a b r : TF_Tensor α)
    (ha : a.Valid) (hb : b.Valid)
    (h : TFTensorAdd B fadd (some a) (some b) = .ok (some r) ∨
      TFTensorSub B fsub (some a) (some b) = .ok (some r) ∨
      TFTensorMul B fmul (some a) (some b) = .ok (some r) ∨
      TFTensorDiv B fdiv isZero inf (some a) (some b) = .ok (some r)) :
    r.Valid ∧ r.dtype = .TF_FLOAT ∧ r.dims.length = a.dims.length ∧
    r.data.length = shapeNumel r.dims ∧
    r.dims.foldl (fun acc d => mulSizeT acc (toSizeT d)) 1 = shapeNumel r.dims := by
  have key : ∀ f : α → α → α, elementwiseOp B f (some a) (some b) = .ok (some r) →
      r.Valid ∧ r.dtype = .TF_FLOAT ∧ r.dims.length = a.dims.length ∧
      r.data.length = shapeNumel r.dims ∧
      r.dims.foldl (fun acc d => mulSizeT acc (toSizeT d)) 1 = shapeNumel r.dims := by
    intro f hf
    obtain ⟨hc, rfl⟩ := elementwiseOp_some B f a b r ha hb hf
    have hv := zipWith_valid f a b ha hb hc
    exact ⟨hv, rfl, rfl, valid_invariant _ hv rfl⟩
  rcases h with h | h | h | h
  · exact key _ (by rw [← TFTensorAdd_eq]; exact h)
  · exact key _ (by rw [← TFTensorSub_eq]; exact h)
  · exact key _ (by rw [← TFTensorMul_eq]; exact h)
  · exact key _ (by rw [← TFTensorDiv_eq]; exact h)

/-- C13: the call `CreateTFTensor(values, {2^62 + 1}, 1)` returns a tensor that breaks the
invariant. The element count `2^62 + 1` is the product of the dimensions, but the byte size
`sizeof(float) * (2^62 + 1)` wraps to `4` in `size_t`: four bytes are allocated, one float is
copied, and `TF_NewTensor` gets a buffer of `4` bytes, which it accepts when it never refuses
and also when it makes its length test in `size_t`. The tensor returned has shape `[2^62 + 1]`
and a buffer of one element. Likewise `CreateTFTensor(values, {2^31, 2^31}, 2)`, whose byte size
wraps to `0`, returns a tensor of shape `[2^31, 2^31]` over a buffer of no element. -/
theorem createTFTensor_byte_size_wraps :
    CreateTFTensor okBackend (some [F32.one, F32.one]) (some [2 ^ 62 + 1]) 1
      = .ok (some ⟨.TF_FLOAT, [2 ^ 62 + 1], [F32.one]⟩) ∧
    CreateTFTensor lengthTestBackend (some [F32.one, F32.one]) (some [2 ^ 62 + 1]) 1
      = .ok (some ⟨.TF_FLOAT, [2 ^ 62 + 1], [F32.one]⟩) ∧
    shapeNumel [2 ^ 62 + 1] = 2 ^ 62 + 1 ∧
    [(2 : Int) ^ 62 + 1].foldl (fun acc d => mulSizeT acc (toSizeT d)) 1 = 2 ^ 62 + 1 ∧
    mulSizeT SIZEOF_FLOAT (2 ^ 62 + 1) = 4 ∧
    (⟨.TF_FLOAT, [2 ^ 62 + 1], [F32.one]⟩ : TF_Tensor F32).data.length = 1 ∧
    ¬ (⟨.TF_FLOAT, [2 ^ 62 + 1], [F32.one]⟩ : TF_Tensor F32).Valid ∧
    CreateTFTensor okBackend (some [F32.one, F32.one]) (some [2 ^ 31, 2 ^ 31]) 2
      = .ok (some ⟨.TF_FLOAT, [2 ^ 31, 2 ^ 31], []⟩) ∧
    CreateTFTensor lengthTestBackend (some [F32.one, F32.one]) (some [2 ^ 31, 2 ^ 31]) 2
      = .ok (some ⟨.TF_FLOAT, [2 ^ 31, 2 ^ 31], []⟩) ∧
    shapeNumel [2 ^ 31, 2 ^ 31] = 2 ^ 62 ∧
    mulSizeT SIZEOF_FLOAT (2 ^ 62) = 0 ∧
    ¬ (⟨.TF_FLOAT, [2 ^ 31, 2 ^ 31], []⟩ : TF_Tensor F32).Valid := by
  refine ⟨by decide, by decide, by decide, by decide, by decide, by decide, ?_,
    by decide, by decide, by decide, by decide, ?_⟩
  · intro hv
    have h := (hv.2 rfl).1
    revert h
    decide
  · intro hv
    have h := (hv.2 rfl).1
    revert h
    decide

/-! ## Copy semantics of `CreateTFTensor` -/

theorem shapeNumel_pos (ds : List Int) (h : ∀ d ∈ ds, 0 < d) : 0 < shapeNumel ds := by
  induction ds with
  | nil => simp [shapeNumel]
  | cons d ds ih =>
      have hd : 0 < d := h d (List.mem_cons_self _ _)
      have hds := ih (fun e he => h e (List.mem_cons_of_mem _ he))
      have e : shapeNumel (d :: ds) = d.toNat * shapeNumel ds := by simp [shapeNumel]
      rw [e]
      exact Nat.mul_pos (by omega) hds

theorem createTFTensor_ok {α : Type} (B : TFBackend) (hB : B.AllocOk) (vs : List α)
    (ds : List Int) (hne : ds ≠ []) (hpos : ∀ d ∈ ds, 0 < d) (hn : shapeNumel ds ≤ vs.length)
    (hbuf : SIZEOF_FLOAT * vs.length < SIZE_MOD) :
    CreateTFTensor B (some vs) (some ds) ds.length
      = .ok (some ⟨.TF_FLOAT, ds, vs.take (shapeNumel ds)⟩) := by
  have hlen : 0 < ds.length := List.length_pos.mpr hne
  have hnn : ∀ d ∈ ds, 0 ≤ d := fun d hd => le_of_lt (hpos d hd)
  have hbytes : SIZEOF_FLOAT * shapeNumel ds < SIZE_MOD := by
    unfold SIZEOF_FLOAT at hbuf ⊢; omega
  have hnum : shapeNumel ds < SIZE_MOD := by unfold SIZEOF_FLOAT at hbytes; omega
  have hfold := sizeFold_eq ds hnn hnum
  have hmul : mulSizeT SIZEOF_FLOAT (shapeNumel ds) = SIZEOF_FLOAT * shapeNumel ds :=
    Nat.mod_eq_of_lt hbytes
  have hdiv : SIZEOF_FLOAT * shapeNumel ds / SIZEOF_FLOAT = shapeNumel ds := by
    unfold SIZEOF_FLOAT; omega
  have h1 : ¬ ((ds.length : Int) ≤ 0) := by omega
  have h3 : ¬ (vs.length * SIZEOF_FLOAT < SIZEOF_FLOAT * shapeNumel ds) := by
    unfold SIZEOF_FLOAT; omega
  unfold CreateTFTensor
  simp only [if_neg h1, Int.toNat_ofNat, List.take_length, hfold, hmul, hdiv,
    hB.1, hB.2, if_neg h3, Bool.true_eq_false, if_false, lt_self_iff_false]

/-- C14: for a non-null array `values` of the caller and a shape `dims` of `num_dims >= 1`
positive dimensions whose product `n` does not exceed the array's length (allocation
succeeding), `CreateTFTensor(values, dims, num_dims)` returns a float tensor of shape `dims`
whose buffer is a fresh block: `GetTensorData` of it is non-null and reads `values[0..n)` in
order, and still does after any later change of memory at the address of the caller's array. -/
theorem createTFTensor_owns_copy {α : Type} (B : TFBackend) (hB : B.AllocOk) (mem : Arrays α)
    (values block : Nat) (vs : List α) (ds : List Int)
    (hv : values ≠ 0) (hvs : mem.lookup values = some vs)
    (hblock : block ≠ 0 ∧ mem.lookup block = none)
    (hne : ds ≠ []) (hpos : ∀ d ∈ ds, 0 < d) (hn : shapeNumel ds ≤ vs.length)
    (hbuf : SIZEOF_FLOAT * vs.length < SIZE_MOD) :
    CreateTFTensor B (some vs) (some ds) ds.length
      = .ok (some ⟨.TF_FLOAT, ds, vs.take (shapeNumel ds)⟩) ∧
    (vs.take (shapeNumel ds)).length = shapeNumel ds ∧
    ∃ t mem1, Mem.CreateTFTensor B block mem values (some ds) ds.length = .ok (some t, mem1) ∧
      t.dtype = .TF_FLOAT ∧ t.dims = ds ∧ Mem.GetTensorData (some t) ≠ 0 ∧
      mem1.lookup (Mem.GetTensorData (some t)) = some (vs.take (shapeNumel ds)) ∧
      ∀ mem2 : Arrays α, (∀ q, q ≠ values → mem2.lookup q = mem1.lookup q) →
        mem2.lookup (Mem.GetTensorData (some t)) = some (vs.take (shapeNumel ds)) := by
  have hpure := createTFTensor_ok B hB vs ds hne hpos hn hbuf
  have hbv : block ≠ values := by
    intro e
    rw [e, hvs] at hblock
    cases hblock.2
  have hget : Mem.GetTensorData (some ⟨.TF_FLOAT, ds, block⟩) = block := by
    simp [Mem.GetTensorData, hblock.1]
  have hlook : List.lookup block ((block, vs.take (shapeNumel ds)) :: mem)
      = some (vs.take (shapeNumel ds)) := by
    simp [List.lookup]
  refine ⟨hpure, by rw [List.length_take]; exact min_eq_left hn,
    ⟨.TF_FLOAT, ds, block⟩, (block, vs.take (shapeNumel ds)) :: mem, ?_, rfl, rfl, ?_, ?_, ?_⟩
  · simp only [Mem.CreateTFTensor, if_neg hv, hvs, Option.getD_some, hpure]
  · rw [hget]; exact hblock.1
  · rw [hget]; exact hlook
  · intro mem2 h2
    rw [hget, h2 block hbv]
    exact hlook

/-- C14 at the caller's array `[6, 10, 3, 5]` at address `7`, the shape `[3]` and the fresh block
`9`: the tensor reads `[6, 10, 3]`. -/
theorem createTFTensor_owns_copy_witness :
    okBackend.AllocOk ∧ (7 : Nat) ≠ 0 ∧ callerMem.lookup 7 = some [6, 10, 3, 5] ∧
    ((9 : Nat) ≠ 0 ∧ callerMem.lookup 9 = none) ∧
    CreateTFTensor okBackend (some ([6, 10, 3, 5] : List Int)) (some [3]) 1
      = .ok (some ⟨.TF_FLOAT, [3], [6, 10, 3]⟩) :=
  ⟨okBackend_allocOk, by decide, by decide, by decide,
    (createTFTensor_owns_copy okBackend okBackend_allocOk callerMem 7 9 [6, 10, 3, 5] [3]
      (by decide) (by decide) (by decide) (by decide) (by decide) (by decide) (by decide)).1⟩

/-! ## Null operands -/

theorem elementwiseOp_null {α : Type} (B : TFBackend) (f : α → α → α)
    (p : Option (TF_Tensor α)) :
    elementwiseOp B f none p = .ok none ∧ elementwiseOp B f p none = .ok none := by
  cases p <;> exact ⟨rfl, rfl⟩

theorem inputLoop_null {α : Type} (i : Nat) :
    ∀ (n : Nat) (ts : List (Option (TF_Tensor α))), i < n → ts[i]? = some none →
      ∃ c, inputLoop n ts = .ok (none, c) ∧ ∀ x ∈ c, x = "TF_NumDims" ∨ x = "TF_Dim" := by
  induction i with
  | zero =>
      intro n ts hn h
      obtain ⟨m, rfl⟩ : ∃ m, n = m + 1 := ⟨n - 1, by omega⟩
      cases ts with
      | nil => simp at h
      | cons x rest =>
          have hx : x = none := by simpa using h
          subst hx
          exact ⟨[], rfl, by simp⟩
  | succ i ih =>
      intro n ts hn h
      obtain ⟨m, rfl⟩ : ∃ m, n = m + 1 := ⟨n - 1, by omega⟩
      cases ts with
      | nil => simp at h
      | cons x rest =>
          cases x with
          | none => exact ⟨[], rfl, by simp⟩
          | some t =>
              have h2 : rest[i]? = some none := by simpa using h
              obtain ⟨c, hc, hcalls⟩ := ih m rest (by omega) h2
              refine ⟨("TF_NumDims" :: List.replicate t.dims.length "TF_Dim") ++ c, ?_, ?_⟩
              · simp only [inputLoop, hc, Option.map_none']
              · intro x hx
                rcases List.mem_append.mp hx with h3 | h3
                · rcases List.mem_cons.mp h3 with h4 | h4
                  · exact Or.inl h4
                  · exact Or.inr (List.eq_of_mem_replicate h4)
                · exact hcalls x h3

/-- C15 as stated fails for `RunSession`: with a valid model and a null input tensor it returns
null only after calls into TensorFlow: `TF_NewStatus` and `TF_DeleteStatus`, and `TF_NumDims`
and `TF_Dim` on the input tensors that precede the null one. -/
theorem runSession_null_input_after_calls :
    RunSession exSession (some exModel) ["input"] [none] 1 ["output"] [none] 1
      = .ok ⟨false, [none], ["TF_NewStatus", "TF_DeleteStatus"]⟩ ∧
    RunSession exSession (some exModel) ["input", "input"] [some floatA, none] 2 ["output"]
        [some floatB] 1
      = .ok ⟨false, [some floatB], ["TF_NewStatus", "TF_NumDims", "TF_Dim", "TF_DeleteStatus"]⟩ := by
  decide

/-- C15 (amended): every handle-returning boundary operation that takes handle operands
(`LinearForward`, `MSELoss`, `CrossEntropyLoss`, `CreateSGD`, `CreateAdam`, the unary `Tensor*`
transforms, `TensorZerosLike`/`OnesLike`, `TFTensorAdd`/`Sub`/`Mul`/`Div`, `TensorData`,
`GetTensorData`) returns the null handle when a handle operand is null, whichever operand of a
binary operation it is, with the state untouched and no backend call made; so does `RunSession`
for a null model handle. For a null input tensor `RunSession` returns null with the caller's
output slots untouched, after `TF_NewStatus`, the rank and dimension queries on the inputs that
precede it and `TF_DeleteStatus`, and before any graph lookup or session run. -/
theorem null_operand_returns_null {α : Type} (T : TorchBackend) (M : TorchMath) (w : World)
    (B : TFBackend) (S : SessionBackend α) :
    (∀ p, Mem.LinearForward T M 0 p w = .ok (0, w) ∧ Mem.LinearForward T M p 0 w = .ok (0, w)) ∧
    (∀ p, Mem.MSELoss T M 0 p w = .ok (0, w) ∧ Mem.MSELoss T M p 0 w = .ok (0, w)) ∧
    (∀ p, Mem.CrossEntropyLoss T M 0 p w = .ok (0, w) ∧
      Mem.CrossEntropyLoss T M p 0 w = .ok (0, w)) ∧
    (∀ lr, Mem.CreateSGD T M 0 lr w = .ok (0, w) ∧ Mem.CreateAdam T M 0 lr w = .ok (0, w)) ∧
    (Mem.TensorReLU T M 0 w = .ok (0, w) ∧ Mem.TensorSigmoid T M 0 w = .ok (0, w) ∧
      Mem.TensorTanh T M 0 w = .ok (0, w) ∧ Mem.TensorSin T M 0 w = .ok (0, w) ∧
      Mem.TensorCos T M 0 w = .ok (0, w) ∧ Mem.TensorExp T M 0 w = .ok (0, w) ∧
      Mem.TensorLog T M 0 w = .ok (0, w) ∧ Mem.TensorSqrt T M 0 w = .ok (0, w) ∧
      Mem.TensorAbs T M 0 w = .ok (0, w) ∧ (∀ e, Mem.TensorPow T M 0 e w = .ok (0, w)) ∧
      Mem.TensorZerosLike T M 0 w = .ok (0, w) ∧ Mem.TensorOnesLike T M 0 w = .ok (0, w)) ∧
    (Mem.TensorData 0 w = .ok none ∧ Mem.GetTensorData none = 0) ∧
    (∀ (fadd fsub fmul fdiv : α → α → α) (isZero : α → Bool) (inf : α)
      (p : Option (TF_Tensor α)),
      (TFTensorAdd B fadd none p = .ok none ∧ TFTensorAdd B fadd p none = .ok none) ∧
      (TFTensorSub B fsub none p = .ok none ∧ TFTensorSub B fsub p none = .ok none) ∧
      (TFTensorMul B fmul none p = .ok none ∧ TFTensorMul B fmul p none = .ok none) ∧
      (TFTensorDiv B fdiv isZero inf none p = .ok none ∧
        TFTensorDiv B fdiv isZero inf p none = .ok none)) ∧
    (∀ (input_names output_names : List String)
      (input_tensors output_tensors : List (Option (TF_Tensor α))) (num_inputs num_outputs : Int),
      RunSession S none input_names input_tensors num_inputs output_names output_tensors
          num_outputs = .ok ⟨false, output_tensors, []⟩ ∧
      ∀ (session : Nat) (graph : List String) (i : Nat), (i : Int) < num_inputs →
        input_tensors[i]? = some none →
        ∃ c, (∀ x ∈ c, x = "TF_NumDims" ∨ x = "TF_Dim") ∧
          RunSession S (some ⟨some session, some graph⟩) input_names input_tensors num_inputs
              output_names output_tensors num_outputs
            = .ok ⟨false, output_tensors, ["TF_NewStatus"] ++ c ++ ["TF_DeleteStatus"]⟩) := by
  refine ⟨?_, ?_, ?_, ?_, ?_, ⟨rfl, rfl⟩, ?_, ?_⟩
  · intro p; simp [Mem.LinearForward]
  · intro p; simp [Mem.MSELoss]
  · intro p; simp [Mem.CrossEntropyLoss]
  · intro lr; simp [Mem.CreateSGD, Mem.CreateAdam]
  · simp [Mem.TensorReLU, Mem.TensorSigmoid, Mem.TensorTanh, Mem.TensorSin, Mem.TensorCos,
      Mem.TensorExp, Mem.TensorLog, Mem.TensorSqrt, Mem.TensorAbs, Mem.TensorPow,
      Mem.TensorZerosLike, Mem.TensorOnesLike, Mem.unaryOp]
  · intro fadd fsub fmul fdiv isZero inf p
    simp only [TFTensorAdd_eq, TFTensorSub_eq, TFTensorMul_eq, TFTensorDiv_eq]
    exact ⟨elementwiseOp_null B _ p, elementwiseOp_null B _ p, elementwiseOp_null B _ p,
      elementwiseOp_null B _ p⟩
  · intro input_names output_names input_tensors output_tensors num_inputs num_outputs
    refine ⟨rfl, ?_⟩
    intro session graph i hi hnull
    obtain ⟨c, hc, hcalls⟩ := inputLoop_null i num_inputs.toNat input_tensors (by omega) hnull
    refine ⟨c, hcalls, ?_⟩
    have hneg : ¬ (num_inputs < 0) := by omega
    simp only [RunSession, if_neg hneg, hc]

/-- C15 (amended) at a valid model whose second input tensor is null. -/
theorem null_operand_returns_null_witness :
    ((1 : Nat) : Int) < 2 ∧ ([some floatA, none] : List (Option (TF_Tensor Int)))[1]? = some none ∧
    ∃ c, (∀ x ∈ c, x = "TF_NumDims" ∨ x = "TF_Dim") ∧
      RunSession exSession (some ⟨some 1, some ["input", "output"]⟩) ["input", "input"]
          [some floatA, none] 2 ["output"] [some floatB] 1
        = .ok ⟨false, [some floatB], ["TF_NewStatus"] ++ c ++ ["TF_DeleteStatus"]⟩ :=
  ⟨by decide, by decide,
    ((null_operand_returns_null exTorch exMath emptyWorld okBackend exSession).2.2.2.2.2.2.2
      ["input", "input"] ["output"] [some floatA, none] [some floatB] 2 1).2 1
      ["input", "output"] 1 (by decide) (by decide)⟩

/-! ## Scalar results -/

theorem store_store_heap (w : World) (h : Nat) (o1 o2 : Obj) :
    ((w.store h o1).store h o2).heap = (w.store h o2).heap := by
  simp [World.store, List.filter_filter]

theorem deref_store_other (w : World) (h q : Nat) (o : Obj) (hq : q ≠ h) :
    (w.store h o).deref q = w.deref q := by
  have hb : (q == h) = false := by simpa using hq
  simp only [World.store, World.deref, List.lookup_cons, hb]
  exact lookup_filter_other w.heap h q hq

theorem exTorch_zeroGradClears : exTorch.ZeroGradClears := fun _ => ⟨rfl, rfl, rfl⟩

theorem sgdTorch_zeroGradClears : sgdTorch.ZeroGradClears := fun _ => ⟨rfl, rfl, rfl⟩

theorem world_eq (a b : World) (h1 : a.heap = b.heap) (h2 : a.calls = b.calls) : a = b := by
  cases a
  cases b
  simp only at h1 h2
  rw [h1, h2]

theorem optimizer_ne_layer (w : World) (h layer : Nat) (o : Optimizer) (linear : Linear)
    (ho : w.deref h = some (.optimizer o)) (hl : w.deref layer = some (.linear linear)) :
    h ≠ layer := by
  intro e
  rw [e, hl] at ho
  cases ho

/-- C17: for a non-null handle to a live optimizer `o` whose backend `step` does not throw,
`OptimizerStep` makes exactly one backend `step` followed by one `zero_grad`: it leaves the state
that `OptimizerZeroGrad` leaves when run on the state after the backend step. The parameter
tensors are those of the layer the optimizer was built on: the layer holds the stepped and
cleared parameters afterwards, and every other handle is untouched. With `zero_grad` clearing as
libtorch documents, every gradient is cleared when it returns, the contents are those the step
left, and an `OptimizerZeroGrad` right after leaves the objects as they are. -/
theorem optimizer_step_then_zero_grad (T : TorchBackend) (w : World) (h : Nat) (o : Optimizer)
    (linear : Linear) (hn : h ≠ 0) (ho : w.deref h = some (.optimizer o))
    (hl : w.deref o.layer = some (.linear linear))
    (hstep : (T.step linear.parameters).2 = false) :
    Mem.OptimizerStep T h w
      = Mem.OptimizerZeroGrad T h
          ((w.call "Optimizer::step").setParameters o.layer linear
            (T.step linear.parameters).1) ∧
    ∃ w1, Mem.OptimizerStep T h w = .ok w1 ∧
      w1.calls = w.calls ++ ["Optimizer::step", "Optimizer::zero_grad"] ∧
      w1.deref o.layer = some (.linear
        { linear with parameters := (T.zero_grad (T.step linear.parameters).1).1 }) ∧
      (∀ q, q ≠ o.layer → w1.deref q = w.deref q) ∧
      (T.ZeroGradClears →
        (T.zero_grad (T.step linear.parameters).1).1.GradsCleared ∧
        (T.zero_grad (T.step linear.parameters).1).1.params
          = (T.step linear.parameters).1.params ∧
        ∃ w2, Mem.OptimizerZeroGrad T h w1 = .ok w2 ∧ w2.heap = w1.heap) := by
  have hne : h ≠ o.layer := optimizer_ne_layer w h o.layer o linear ho hl
  have hs : Mem.OptimizerStep T h w
      = .ok (((w.call "Optimizer::step").call "Optimizer::zero_grad").setParameters o.layer
          linear (T.zero_grad (T.step linear.parameters).1).1) := by
    simp [Mem.OptimizerStep, hn, ho, hl, hstep]
  have hzero : ∀ (v : World) (l : Linear), v.deref h = some (.optimizer o) →
      v.deref o.layer = some (.linear l) →
      Mem.OptimizerZeroGrad T h v
        = .ok ((v.call "Optimizer::zero_grad").setParameters o.layer l
            (T.zero_grad l.parameters).1) := by
    intro v l hv hvl
    simp [Mem.OptimizerZeroGrad, hn, hv, hvl]
  constructor
  · rw [hs, hzero _ { linear with parameters := (T.step linear.parameters).1 }
      (by
        show (World.store _ _ _).deref h = _
        rw [deref_store_other _ _ _ _ hne]
        exact ho)
      (by
        show (World.store _ _ _).deref o.layer = _
        rw [deref_store_self])]
    congr 1
    apply world_eq
    · simp [World.setParameters, World.store, World.call, List.filter_filter]
    · rfl
  · refine ⟨_, hs, ?_, deref_store_self _ _ _, ?_, ?_⟩
    · simp [World.setParameters, World.store, World.call]
    · intro q hq
      show (World.store _ _ _).deref q = _
      rw [deref_store_other _ _ _ _ hq]
      rfl
    · intro hz
      obtain ⟨-, hp, hg⟩ := hz (T.step linear.parameters).1
      refine ⟨?_, hp, ?_⟩
      · intro g hgm
        rw [hg] at hgm
        obtain ⟨_, -, rfl⟩ := List.mem_map.mp hgm
        rfl
      · obtain ⟨-, hp2, hg2⟩ := hz (T.zero_grad (T.step linear.parameters).1).1
        have hfix : (T.zero_grad (T.zero_grad (T.step linear.parameters).1).1).1
            = (T.zero_grad (T.step linear.parameters).1).1 := by
          have e1 : (T.zero_grad (T.zero_grad (T.step linear.parameters).1).1).1.grads
              = (T.zero_grad (T.step linear.parameters).1).1.grads := by
            rw [hg2, hg, List.map_map]
            rfl
          cases hx : (T.zero_grad (T.zero_grad (T.step linear.parameters).1).1).1 with
          | mk p1 g1 =>
            cases hy : (T.zero_grad (T.step linear.parameters).1).1 with
            | mk p2 g2 =>
              rw [hx, hy] at e1
              rw [hx, hy] at hp2
              simp only at e1 hp2
              rw [e1, hp2]
        refine ⟨_, hzero _ { linear with parameters := (T.zero_grad (T.step linear.parameters).1).1 }
          (by
            show (World.store _ _ _).deref h = _
            rw [deref_store_other _ _ _ _ hne]
            exact ho)
          (by
            show (World.store _ _ _).deref o.layer = _
            rw [deref_store_self]), ?_⟩
        show (World.store _ _ _).heap = (World.store _ _ _).heap
        rw [hfix]
        simp [World.setParameters, World.store, World.call, List.filter_filter]

/-- C17 at the sample state under a gradient-descent backend, for the optimizer at address `2`:
the step takes the weight of the layer from `1.0f` to `+0.0f` and clears the gradients, which
the other optimizer built on the layer, at address `3`, sees as well. -/
theorem optimizer_step_then_zero_grad_witness :
    (2 : Nat) ≠ 0 ∧ trainingWorld.deref 2 = some (.optimizer ⟨1⟩) ∧
    trainingWorld.deref 1
      = some (.linear ⟨1, 1, ⟨[F32.one, F32.one], [F32.one, F32.posZero]⟩⟩) ∧
    (sgdTorch.step ⟨[F32.one, F32.one], [F32.one, F32.posZero]⟩).2 = false ∧
    sgdTorch.ZeroGradClears ∧
    Mem.OptimizerStep sgdTorch 2 trainingWorld
      = Mem.OptimizerZeroGrad sgdTorch 2
          ((trainingWorld.call "Optimizer::step").setParameters 1
            ⟨1, 1, ⟨[F32.one, F32.one], [F32.one, F32.posZero]⟩⟩
            (sgdTorch.step ⟨[F32.one, F32.one], [F32.one, F32.posZero]⟩).1) ∧
    Mem.OptimizerStep sgdTorch 2 trainingWorld
      = .ok ⟨[(1, .linear ⟨1, 1, ⟨[F32.posZero, F32.one], [F32.posZero, F32.posZero]⟩⟩),
          (2, .optimizer ⟨1⟩), (3, .optimizer ⟨1⟩)],
          ["Optimizer::step", "Optimizer::zero_grad"]⟩ :=
  ⟨by decide, by decide, by decide, rfl, sgdTorch_zeroGradClears,
    (optimizer_step_then_zero_grad sgdTorch trainingWorld 2 ⟨1⟩
      ⟨1, 1, ⟨[F32.one, F32.one], [F32.one, F32.posZero]⟩⟩ (by decide) (by decide) (by decide)
      rfl).1,
    by decide⟩

/-! ## Name resolution of `RunSession` -/

theorem inputLoop_all {α : Type} (inputs : List (TF_Tensor α)) :
    ∃ c, inputLoop inputs.length (inputs.map some) = .ok (some inputs, c) ∧
      ∀ x ∈ c, x = "TF_NumDims" ∨ x = "TF_Dim" := by
  induction inputs with
  | nil => exact ⟨[], rfl, by simp⟩
  | cons t rest ih =>
      obtain ⟨c, hc, hcalls⟩ := ih
      refine ⟨("TF_NumDims" :: List.replicate t.dims.length "TF_Dim") ++ c, ?_, ?_⟩
      · simp only [List.length_cons, List.map_cons, inputLoop, hc, Option.map_some']
      · intro x hx
        rcases List.mem_append.mp hx with h3 | h3
        · rcases List.mem_cons.mp h3 with h4 | h4
          · exact Or.inl h4
          · exact Or.inr (List.eq_of_mem_replicate h4)
        · exact hcalls x h3

theorem nameLoop_all (graph names : List String) :
    ∃ c, nameLoop graph names.length names
        = .ok (names.all (fun name => graph.contains name), c) ∧
      ∀ x ∈ c, x = "TF_GraphOperationByName" := by
  induction names with
  | nil => exact ⟨[], rfl, by simp⟩
  | cons name rest ih =>
      obtain ⟨c, hc, hcalls⟩ := ih
      by_cases hg : graph.contains name = true
      · refine ⟨"TF_GraphOperationByName" :: c, ?_, ?_⟩
        · simp only [List.length_cons, nameLoop, hg, if_true, hc, List.all_cons, Bool.true_and]
        · intro x hx
          rcases List.mem_cons.mp hx with h | h
          · exact h
          · exact hcalls x h
      · refine ⟨["TF_GraphOperationByName"], ?_, by simp⟩
        have hf : graph.contains name = false := by simpa using hg
        simp only [List.length_cons, nameLoop, hf, Bool.false_eq_true, if_false, List.all_cons,
          Bool.false_and]

theorem all_contains_iff (graph names : List String) :
    names.all (fun name => graph.contains name) = true ↔ ∀ name ∈ names, name ∈ graph := by
  simp

/-- The outcomes of `RunSession` on a valid model and non-null inputs, stage by stage. -/
theorem runOnModel_stages {α : Type} (S : SessionBackend α) (session : Nat)
    (graph input_names output_names : List String) (inputs : List (TF_Tensor α))
    (output_tensors : List (Option (TF_Tensor α))) (hin : inputs.length = input_names.length) :
    ∃ c1 c2 c3 : List String,
      (∀ x ∈ c1 ++ c2 ++ c3, x = "TF_NumDims" ∨ x = "TF_Dim" ∨ x = "TF_GraphOperationByName") ∧
      (input_names.all (fun name => graph.contains name) = false →
        runOnModel S session graph input_names inputs output_names output_tensors
          = .ok ⟨false, output_tensors, ["TF_NewStatus"] ++ c1 ++ c2 ++ ["TF_DeleteStatus"]⟩) ∧
      (input_names.all (fun name => graph.contains name) = true →
        output_names.all (fun name => graph.contains name) = false →
        runOnModel S session graph input_names inputs output_names output_tensors
          = .ok ⟨false, output_tensors,
              ["TF_NewStatus"] ++ c1 ++ c2 ++ c3 ++ ["TF_DeleteStatus"]⟩) ∧
      (input_names.all (fun name => graph.contains name) = true →
        output_names.all (fun name => graph.contains name) = true →
        runOnModel S session graph input_names inputs output_names output_tensors
          = if output_tensors.length < output_names.length then .undefined
            else if (S.TF_SessionRun session (input_names.zip inputs) output_names).1 = false then
              .ok ⟨false, List.replicate output_names.length none ++
                  output_tensors.drop output_names.length,
                ["TF_NewStatus"] ++ c1 ++ c2 ++ c3 ++ ["TF_SessionRun", "TF_GetCode"] ++
                  ["TF_Message", "TF_DeleteStatus"]⟩
            else
              match printLoop ((List.range output_names.length).map (fun i =>
                  (S.TF_SessionRun session (input_names.zip inputs) output_names).2.getD i none)) with
              | .undefined => .undefined
              | .ok c5 =>
                  .ok ⟨decide ((0 : Int) < output_names.length) || S.emptyVectorData,
                    (List.range output_names.length).map (fun i =>
                      (S.TF_SessionRun session (input_names.zip inputs) output_names).2.getD i none)
                      ++ output_tensors.drop output_names.length,
                    ["TF_NewStatus"] ++ c1 ++ c2 ++ c3 ++ ["TF_SessionRun", "TF_GetCode"] ++ c5 ++
                      ["TF_DeleteStatus"]⟩) := by
  obtain ⟨c1, h1, hc1⟩ := inputLoop_all inputs
  obtain ⟨c2, h2, hc2⟩ := nameLoop_all graph input_names
  obtain ⟨c3, h3, hc3⟩ := nameLoop_all graph output_names
  rw [hin] at h1
  have hneg1 : ¬ ((input_names.length : Int) < 0) := by omega
  have hneg2 : ¬ ((output_names.length : Int) < 0) := by omega
  refine ⟨c1, c2, c3, ?_, ?_, ?_, ?_⟩
  · intro x hx
    rcases List.mem_append.mp hx with h | h
    · rcases List.mem_append.mp h with h | h
      · rcases hc1 x h with h | h
        · exact Or.inl h
        · exact Or.inr (Or.inl h)
      · exact Or.inr (Or.inr (hc2 x h))
    · exact Or.inr (Or.inr (hc3 x h))
  · intro hf
    rw [hf] at h2
    simp only [runOnModel, RunSession, if_neg hneg1, Int.toNat_natCast, h1, h2]
  · intro ht hf
    rw [ht] at h2
    rw [hf] at h3
    simp only [runOnModel, RunSession, if_neg hneg1, if_neg hneg2, Int.toNat_natCast, h1, h2, h3]
  · intro ht ht2
    rw [ht] at h2
    rw [ht2] at h3
    simp only [runOnModel, RunSession, if_neg hneg1, if_neg hneg2, Int.toNat_natCast, h1, h2, h3,
      List.take_length]

theorem bool_false_of_not_all (graph names : List String) (name : String)
    (hm : name ∈ names) (hg : name ∉ graph) :
    names.all (fun name => graph.contains name) = false := by
  cases h : names.all (fun name => graph.contains name) with
  | false => rfl
  | true => exact absurd ((all_contains_iff graph names).mp h name hm) hg

/-- C18: for a valid model handle (session and graph non-null) and non-null input tensors,
`RunSession` returns the null sentinel, with the output slots untouched and without calling
`TF_SessionRun`, if an input name or an output name has no operation in the graph; and when it
returns non-null, every input and output name resolved, the session was run and reported
success. -/
theorem runSession_resolves_names {α : Type} (S : SessionBackend α) (session : Nat)
    (graph input_names output_names : List String) (inputs : List (TF_Tensor α))
    (output_tensors : List (Option (TF_Tensor α))) (hin : inputs.length = input_names.length) :
    ((∃ name, (name ∈ input_names ∨ name ∈ output_names) ∧ name ∉ graph) →
      ∃ calls, runOnModel S session graph input_names inputs output_names output_tensors
          = .ok ⟨false, output_tensors, calls⟩ ∧ "TF_SessionRun" ∉ calls) ∧
    (∀ out, runOnModel S session graph input_names inputs output_names output_tensors = .ok out →
      out.ret = true →
      (∀ name ∈ input_names, name ∈ graph) ∧ (∀ name ∈ output_names, name ∈ graph) ∧
      (S.TF_SessionRun session (input_names.zip inputs) output_names).1 = true ∧
      "TF_SessionRun" ∈ out.calls) := by
  obtain ⟨c1, c2, c3, hcalls, hs1, hs2, hs3⟩ :=
    runOnModel_stages S session graph input_names output_names inputs output_tensors hin
  have hno : ∀ x, x = "TF_NumDims" ∨ x = "TF_Dim" ∨ x = "TF_GraphOperationByName" →
      "TF_SessionRun" ≠ x := by
    intro x hx e
    subst e
    rcases hx with h | h | h <;> exact absurd h (by decide)
  have hc1 : ∀ x ∈ c1, "TF_SessionRun" ≠ x := fun x hx =>
    hno x (hcalls x (List.mem_append_left _ (List.mem_append_left _ hx)))
  have hc2 : ∀ x ∈ c2, "TF_SessionRun" ≠ x := fun x hx =>
    hno x (hcalls x (List.mem_append_left _ (List.mem_append_right _ hx)))
  have hc3 : ∀ x ∈ c3, "TF_SessionRun" ≠ x := fun x hx =>
    hno x (hcalls x (List.mem_append_right _ hx))
  constructor
  · rintro ⟨name, hmem, hg⟩
    cases hI : input_names.all (fun name => graph.contains name) with
    | false =>
        refine ⟨_, hs1 hI, ?_⟩
        intro hm
        simp only [List.mem_append, List.mem_singleton] at hm
        rcases hm with ((h | h) | h) | h
        · exact absurd h (by decide)
        · exact hc1 _ h rfl
        · exact hc2 _ h rfl
        · exact absurd h (by decide)
    | true =>
        have hout : name ∈ output_names := by
          rcases hmem with h | h
          · exact absurd ((all_contains_iff graph input_names).mp hI name h) hg
          · exact h
        have hO := bool_false_of_not_all graph output_names name hout hg
        refine ⟨_, hs2 hI hO, ?_⟩
        intro hm
        simp only [List.mem_append, List.mem_singleton] at hm
        rcases hm with (((h | h) | h) | h) | h
        · exact absurd h (by decide)
        · exact hc1 _ h rfl
        · exact hc2 _ h rfl
        · exact hc3 _ h rfl
        · exact absurd h (by decide)
  · intro out hout hret
    cases hI : input_names.all (fun name => graph.contains name) with
    | false =>
        rw [hs1 hI] at hout
        injection hout with h1
        rw [← h1] at hret
        cases hret
    | true =>
        cases hO : output_names.all (fun name => graph.contains name) with
        | false =>
            rw [hs2 hI hO] at hout
            injection hout with h1
            rw [← h1] at hret
            cases hret
        | true =>
            rw [hs3 hI hO] at hout
            refine ⟨(all_contains_iff graph input_names).mp hI,
              (all_contains_iff graph output_names).mp hO, ?_⟩
            split at hout
            · cases hout
            · split at hout
              · injection hout with h1
                rw [← h1] at hret
                cases hret
              · rename_i hrun
                split at hout
                · cases hout
                · injection hout with h1
                  refine ⟨by simpa using hrun, ?_⟩
                  rw [← h1]
                  simp

/-- C18 at a graph with the operations `input` and `output`: the output name `missing` gives
null without a session run, and the names `input`, `output` give a non-null return. -/
theorem runSession_resolves_names_witness :
    [floatA].length = ["input"].length ∧
    (∃ calls, runOnModel exSession 1 ["input", "output"] ["input"] [floatA] ["missing"] [none]
        = .ok ⟨false, [none], calls⟩ ∧ "TF_SessionRun" ∉ calls) ∧
    runOnModel exSession 1 ["input", "output"] ["input"] [floatA] ["output"] [none]
      = .ok ⟨true, [some floatA],
          ["TF_NewStatus", "TF_NumDims", "TF_Dim", "TF_GraphOperationByName",
           "TF_GraphOperationByName", "TF_SessionRun", "TF_GetCode", "TF_NumDims", "TF_Dim",
           "TF_Dim", "TF_TensorData", "TF_DeleteStatus"]⟩ :=
  ⟨rfl,
    (runSession_resolves_names exSession 1 ["input", "output"] ["input"] ["missing"] [floatA]
      [none] rfl).1 ⟨"missing", Or.inr (by decide), by decide⟩,
    by decide⟩

/-! ## Agreement and symmetry of the arithmetic functions -/

theorem elemLoop_none_iff {α : Type} (f g : α → α → α) (n : Nat) (xs ys : List α) :
    elemLoop f n xs ys = none ↔ elemLoop g n xs ys = none := by
  induction n generalizing xs ys with
  | zero => simp [elemLoop]
  | succ n ih =>
      cases xs with
      | nil => simp [elemLoop]
      | cons x xs =>
          cases ys with
          | nil => simp [elemLoop]
          | cons y ys => simp [elemLoop, ih xs ys]

theorem allocFillWrap_shape {α : Type} (B : TFBackend) (f g : α → α → α) (dims : List Int)
    (n : Nat) (xs ys : List α) :
    (allocFillWrap B f dims n xs ys).shape = (allocFillWrap B g dims n xs ys).shape := by
  unfold allocFillWrap
  simp only
  split
  · rfl
  · split
    · rfl
    · have h := elemLoop_none_iff f g n xs ys
      cases hf : elemLoop f n xs ys with
      | none => rw [h.mp hf]
      | some rf =>
          cases hg : elemLoop g n xs ys with
          | none => rw [h.mpr hg] at hf; cases hf
          | some rg =>
              simp only
              split <;> rfl

theorem elementwiseOp_shape {α : Type} (B : TFBackend) (f g : α → α → α)
    (pa pb : Option (TF_Tensor α)) :
    (elementwiseOp B f pa pb).shape = (elementwiseOp B g pa pb).shape := by
  unfold elementwiseOp
  cases pa with
  | none => rfl
  | some a =>
      cases pb with
      | none => rfl
      | some b =>
          simp only
          split
          · rfl
          · split
            · rfl
            · cases hd : dimLoop (a.dims.zip b.dims) ([], 1) with
              | none => rfl
              | some st => exact allocFillWrap_shape B f g st.1 st.2 a.data b.data

theorem allocFillWrap_dims {α : Type} (B : TFBackend) (f : α → α → α) (dims : List Int)
    (n : Nat) (xs ys : List α) (r : TF_Tensor α)
    (h : allocFillWrap B f dims n xs ys = .ok (some r)) : r.dims = dims ∧ r.dtype = .TF_FLOAT := by
  unfold allocFillWrap at h
  simp only at h
  split at h
  · cases h
  · split at h
    · cases h
    · split at h
      · cases h
      · split at h
        · cases h
        · injection h with h1
          injection h1 with h2
          rw [← h2]
          exact ⟨rfl, rfl⟩

theorem elementwiseOp_dims {α : Type} (B : TFBackend) (f : α → α → α) (a b r : TF_Tensor α)
    (h : elementwiseOp B f (some a) (some b) = .ok (some r)) :
    r.dims = a.dims ∧ r.dims = b.dims ∧ r.dtype = .TF_FLOAT := by
  unfold elementwiseOp at h
  simp only at h
  split at h
  · cases h
  · split at h
    · cases h
    · rename_i hl
      have hlen : a.dims.length = b.dims.length := not_not.mp hl
      by_cases he : a.dims = b.dims
      · rw [← he, dimLoop_self] at h
        simp only [List.nil_append] at h
        have hr := allocFillWrap_dims B f _ _ _ _ r h
        exact ⟨hr.1, he ▸ hr.1, hr.2⟩
      · rw [dimLoop_ne a.dims b.dims hlen he] at h
        cases h

/-- C19: for every pair of (possibly null) graph-engine tensors, against one backend,
`TFTensorAdd`, `TFTensorSub`, `TFTensorMul` and `TFTensorDiv` have the same outcome up to the
elements: all four return null, or all four return a tensor of the same type and shape (or all
four are undefined); and a tensor one of them returns for non-null operands has the shape of
both operands. -/
theorem tf_arith_validators_agree {α : Type} (B : TFBackend) (fadd fsub fmul fdiv : α → α → α)
    (isZero : α → Bool) (inf : α) (pa pb : Option (TF_Tensor α)) :
    (TFTensorSub B fsub pa pb).shape = (TFTensorAdd B fadd pa pb).shape ∧
    (TFTensorMul B fmul pa pb).shape = (TFTensorAdd B fadd pa pb).shape ∧
    (TFTensorDiv B fdiv isZero inf pa pb).shape = (TFTensorAdd B fadd pa pb).shape ∧
    (TFTensorAdd B fadd pa pb = .ok none ↔ TFTensorSub B fsub pa pb = .ok none) ∧
    (TFTensorAdd B fadd pa pb = .ok none ↔ TFTensorMul B fmul pa pb = .ok none) ∧
    (TFTensorAdd B fadd pa pb = .ok none ↔ TFTensorDiv B fdiv isZero inf pa pb = .ok none) ∧
    (∀ a b r, pa = some a → pb = some b →
      (TFTensorAdd B fadd pa pb = .ok (some r) ∨ TFTensorSub B fsub pa pb = .ok (some r) ∨
        TFTensorMul B fmul pa pb = .ok (some r) ∨
        TFTensorDiv B fdiv isZero inf pa pb = .ok (some r)) →
      r.dims = a.dims ∧ r.dims = b.dims) := by
  have hnull : ∀ x y : Exec (Option (TF_Tensor α)), x.shape = y.shape →
      (y = .ok none ↔ x = .ok none) := by
    intro x y hxy
    cases x with
    | undefined =>
        cases y with
        | undefined => exact Iff.rfl
        | ok v => cases v <;> cases hxy
    | ok u =>
        cases y with
        | undefined => cases u <;> cases hxy
        | ok v =>
            cases u <;> cases v
            · exact Iff.rfl
            · cases hxy
            · cases hxy
            · constructor <;> intro h <;> cases h
  rw [TFTensorAdd_eq, TFTensorSub_eq, TFTensorMul_eq, TFTensorDiv_eq]
  have h1 := elementwiseOp_shape B fsub fadd pa pb
  have h2 := elementwiseOp_shape B fmul fadd pa pb
  have h3 := elementwiseOp_shape B (divElem fdiv isZero inf) fadd pa pb
  refine ⟨h1, h2, h3, hnull _ _ h1, hnull _ _ h2, hnull _ _ h3, ?_⟩
  intro a b r ha hb h
  subst ha hb
  rcases h with h | h | h | h <;>
    exact ⟨(elementwiseOp_dims B _ a b r h).1, (elementwiseOp_dims B _ a b r h).2.1⟩

/-- C19 at the float tensors `[6, 10]` and `[3, 5]`: the sum has the shape of the operands, and
the difference has the type and shape of the sum. -/
theorem tf_arith_validators_agree_witness :
    some floatA = some floatA ∧ some floatB = some floatB ∧
    TFTensorAdd okBackend (fun x y : Int => x + y) (some floatA) (some floatB)
      = .ok (some ⟨.TF_FLOAT, [2], [9, 15]⟩) ∧
    (⟨.TF_FLOAT, [2], [9, 15]⟩ : TF_Tensor Int).dims = floatA.dims ∧
    (TFTensorSub okBackend (fun x y : Int => x - y) (some floatA) (some floatB)).shape
      = (TFTensorAdd okBackend (fun x y : Int => x + y) (some floatA) (some floatB)).shape :=
  have h := tf_arith_validators_agree okBackend (fun x y : Int => x + y) (fun x y => x - y)
    (fun x y => x * y) (fun x y => x / y) (fun y => y == 0) 0 (some floatA) (some floatB)
  ⟨rfl, rfl, by decide,
    (h.2.2.2.2.2.2 floatA floatB ⟨.TF_FLOAT, [2], [9, 15]⟩ rfl rfl (Or.inl (by decide))).1, h.1⟩

theorem F32.mul_comm_of_not_both_nan (x y : F32) (h : (x.isNaN && y.isNaN) = false) :
    F32.mul x y = F32.mul y x := by
  unfold F32.mul
  cases hx : x.isNaN <;> cases hy : y.isNaN
  · cases hxi : x.isInf <;> cases hyi : y.isInf <;> cases hxz : x.isZero <;>
      cases hyz : y.isZero <;> simp [Nat.mul_comm, Bool.xor_comm]
  · simp
  · simp
  · rw [hx, hy] at h
    cases h

theorem printLoop_ok {α : Type} (ts : List (Option (TF_Tensor α)))
    (h : ∀ t, some t ∈ ts → t.Printable) : ∃ c, printLoop ts = .ok c := by
  induction ts with
  | nil => exact ⟨[], rfl⟩
  | cons x rest ih =>
      obtain ⟨c, hc⟩ := ih (fun t ht => h t (List.mem_cons_of_mem _ ht))
      cases x with
      | none => exact ⟨c, by simp only [printLoop, hc]⟩
      | some t =>
          have hp : ¬ (t.data.length < min (t.dims.foldl (fun acc d => mulSizeT acc (toSizeT d)) 1) 10) :=
            not_lt.mpr (h t (List.mem_cons_self _ _))
          exact ⟨("TF_NumDims" :: List.replicate t.dims.length "TF_Dim") ++
            List.replicate t.dims.length "TF_Dim" ++ ["TF_TensorData"] ++ c,
            by simp only [printLoop, if_neg hp, hc]⟩

theorem slot_written {β : Type} (f : Nat → β) (n i : Nat) (rest : List β) (hi : i < n) :
    ((List.range n).map f ++ rest)[i]? = some (f i) := by
  have hl : i < ((List.range n).map f).length := by simpa using hi
  rw [List.getElem?_append_left hl]
  simp [hi]

theorem slot_cleared {β : Type} (n i : Nat) (rest : List (Option β)) (hi : i < n) :
    (List.replicate n (none : Option β) ++ rest)[i]? = some none := by
  have hl : i < (List.replicate n (none : Option β)).length := by simpa using hi
  rw [List.getElem?_append_left hl]
  simp [hi]

theorem slots_beyond {β : Type} (written rest : List β) (n : Nat) (hn : written.length = n) :
    (written ++ rest).drop n = rest := by
  subst hn
  simp

theorem runSession_invalid_model {α : Type} (S : SessionBackend α) (h : Option ModelHandle)
    (hinv : h = none ∨ ∃ m, h = some m ∧ (m.session = none ∨ m.graph = none))
    (input_names output_names : List String)
    (input_tensors output_tensors : List (Option (TF_Tensor α))) (num_inputs num_outputs : Int) :
    RunSession S h input_names input_tensors num_inputs output_names output_tensors num_outputs
      = .ok ⟨false, output_tensors, []⟩ := by
  rcases hinv with rfl | ⟨m, rfl, hm⟩
  · rfl
  · obtain ⟨session, graph⟩ := m
    rcases hm with hs | hg
    · simp only at hs
      subst hs
      rfl
    · simp only at hg
      subst hg
      cases session <;> rfl

/-- C21: for every call of `RunSession`, by the way it ends. A validation failure (an invalid
model handle: null, or without session or graph; a null input tensor; an input or output name
without operation in the graph) returns null and leaves the caller's array `output_tensors`
exactly as passed in. A session execution error returns null with every slot
`output_tensors[0 .. num_outputs)` set to null and the slots beyond untouched. When the session
reports success, every slot `i < num_outputs` of a call that returns holds the `i`-th tensor the
session produced, and the call does return when the tensors produced can be printed. -/
theorem runSession_output_slots {α : Type} (S : SessionBackend α)
    (input_names output_names : List String)
    (input_tensors output_tensors : List (Option (TF_Tensor α))) (num_inputs num_outputs : Int) :
    (∀ h : Option ModelHandle,
      (h = none ∨ ∃ m, h = some m ∧ (m.session = none ∨ m.graph = none)) →
      RunSession S h input_names input_tensors num_inputs output_names output_tensors num_outputs
        = .ok ⟨false, output_tensors, []⟩) ∧
    (∀ (session : Nat) (graph : List String) (i : Nat), (i : Int) < num_inputs →
      input_tensors[i]? = some none →
      ∃ calls, RunSession S (some ⟨some session, some graph⟩) input_names input_tensors
          num_inputs output_names output_tensors num_outputs
        = .ok ⟨false, output_tensors, calls⟩) ∧
    (∀ (session : Nat) (graph : List String) (inputs : List (TF_Tensor α)),
      inputs.length = input_names.length →
      ((∃ name, (name ∈ input_names ∨ name ∈ output_names) ∧ name ∉ graph) →
        ∃ calls, runOnModel S session graph input_names inputs output_names output_tensors
          = .ok ⟨false, output_tensors, calls⟩) ∧
      ((∀ name ∈ input_names, name ∈ graph) → (∀ name ∈ output_names, name ∈ graph) →
        output_names.length ≤ output_tensors.length →
        ((S.TF_SessionRun session (input_names.zip inputs) output_names).1 = false →
          ∃ out, runOnModel S session graph input_names inputs output_names output_tensors
              = .ok out ∧ out.ret = false ∧
            (∀ i, i < output_names.length → out.output_tensors[i]? = some none) ∧
            out.output_tensors.drop output_names.length
              = output_tensors.drop output_names.length) ∧
        ((S.TF_SessionRun session (input_names.zip inputs) output_names).1 = true →
          (∀ out, runOnModel S session graph input_names inputs output_names output_tensors
              = .ok out →
            (∀ i, i < output_names.length → out.output_tensors[i]?
              = some ((S.TF_SessionRun session (input_names.zip inputs) output_names).2.getD i
                  none)) ∧
            out.output_tensors.drop output_names.length
              = output_tensors.drop output_names.length) ∧
          ((∀ i t, i < output_names.length →
              (S.TF_SessionRun session (input_names.zip inputs) output_names).2.getD i none
                = some t → t.Printable) →
            ∃ out, runOnModel S session graph input_names inputs output_names output_tensors
              = .ok out ∧ "TF_SessionRun" ∈ out.calls)))) := by
  refine ⟨fun h hinv => runSession_invalid_model S h hinv _ _ _ _ _ _, ?_, ?_⟩
  · intro session graph i hi hnull
    obtain ⟨c, hc, -⟩ := inputLoop_null i num_inputs.toNat input_tensors (by omega) hnull
    have hneg : ¬ (num_inputs < 0) := by omega
    exact ⟨["TF_NewStatus"] ++ c ++ ["TF_DeleteStatus"],
      by simp only [RunSession, if_neg hneg, hc]⟩
  · intro session graph inputs hin
    obtain ⟨c1, c2, c3, -, hs1, hs2, hs3⟩ :=
      runOnModel_stages S session graph input_names output_names inputs output_tensors hin
    constructor
    · rintro ⟨name, hmem, hg⟩
      cases hI : input_names.all (fun name => graph.contains name) with
      | false => exact ⟨_, hs1 hI⟩
      | true =>
          have hout : name ∈ output_names := by
            rcases hmem with h | h
            · exact absurd ((all_contains_iff graph input_names).mp hI name h) hg
            · exact h
          exact ⟨_, hs2 hI (bool_false_of_not_all graph output_names name hout hg)⟩
    · intro hIn hOut hlen
      have hI := (all_contains_iff graph input_names).mpr hIn
      have hO := (all_contains_iff graph output_names).mpr hOut
      have hrun := hs3 hI hO
      rw [if_neg (not_lt.mpr hlen)] at hrun
      constructor
      · intro hfail
        rw [if_pos hfail] at hrun
        refine ⟨_, hrun, rfl, ?_, ?_⟩
        · intro i hi
          exact slot_cleared _ i _ hi
        · exact slots_beyond _ _ _ (by simp)
      · intro hok
        have hnf : ¬ ((S.TF_SessionRun session (input_names.zip inputs) output_names).1 = false) := by
          rw [hok]; simp
        rw [if_neg hnf] at hrun
        constructor
        · intro out hout
          rw [hrun] at hout
          split at hout
          · cases hout
          · injection hout with h1
            rw [← h1]
            exact ⟨fun i hi => slot_written _ _ i _ hi, slots_beyond _ _ _ (by simp)⟩
        · intro hprint
          have hp : ∀ t, some t ∈ (List.range output_names.length).map (fun i =>
              (S.TF_SessionRun session (input_names.zip inputs) output_names).2.getD i none) →
              t.Printable := by
            intro t ht
            obtain ⟨i, hi, hit⟩ := List.mem_map.mp ht
            exact hprint i t (List.mem_range.mp hi) hit
          obtain ⟨c5, hc5⟩ := printLoop_ok _ hp
          rw [hc5] at hrun
          refine ⟨_, hrun, ?_⟩
          simp

/-- C21 at a graph with the operations `input` and `output` and one slot holding a tensor: a
failing session run leaves the slot null, a successful one leaves the tensor produced in it, and
an unresolved output name leaves the slot as it was. -/
theorem runSession_output_slots_witness :
    [floatA].length = ["input"].length ∧ ["output"].length ≤ [some floatB].length ∧
    (failSession.TF_SessionRun 1 (["input"].zip [floatA]) ["output"]).1 = false ∧
    (∃ out, runOnModel failSession 1 ["input", "output"] ["input"] [floatA] ["output"]
        [some floatB] = .ok out ∧ out.ret = false) ∧
    runOnModel failSession 1 ["input", "output"] ["input"] [floatA] ["output"] [some floatB]
      = .ok ⟨false, [none],
          ["TF_NewStatus", "TF_NumDims", "TF_Dim", "TF_GraphOperationByName",
           "TF_GraphOperationByName", "TF_SessionRun", "TF_GetCode", "TF_Message",
           "TF_DeleteStatus"]⟩ ∧
    (runOnModel exSession 1 ["input", "output"] ["input"] [floatA] ["output"] [some floatB]
      = .ok ⟨true, [some floatA],
          ["TF_NewStatus", "TF_NumDims", "TF_Dim", "TF_GraphOperationByName",
           "TF_GraphOperationByName", "TF_SessionRun", "TF_GetCode", "TF_NumDims", "TF_Dim",
           "TF_Dim", "TF_TensorData", "TF_DeleteStatus"]⟩) ∧
    runOnModel exSession 1 ["input", "output"] ["input"] [floatA] ["missing"] [some floatB]
      = .ok ⟨false, [some floatB],
          ["TF_NewStatus", "TF_NumDims", "TF_Dim", "TF_GraphOperationByName",
           "TF_GraphOperationByName", "TF_DeleteStatus"]⟩ :=
  ⟨rfl, by decide, rfl,
    ((((runSession_output_slots failSession ["input"] ["output"] [some floatA] [some floatB]
      1 1).2.2 1 ["input", "output"] [floatA] rfl).2 (by decide) (by decide) (by decide)).1
        rfl).imp fun _ h => ⟨h.1, h.2.1⟩,
    by decide, by decide, by decide⟩

end CopperIA
